import Mathlib

/-!
Shallow embedding of the icon / splash-screen resource preparation logic of
`src/lib/prepare.js` (cordova-android), together with proofs about it.

Conventions of the embedding:
* JavaScript strings that may be `undefined` are modelled as `Option String`;
  JS truthiness of a string value (`undefined` and `""` are falsy) is `tstr`.
* JS numbers that may be `undefined` are `Option Nat` (`undefined` and `0` falsy).
* A JS object used as a string-keyed dictionary is an association list whose
  insert (`rset`) replaces the value in place and whose `delete` (`rdel`)
  removes the binding; looking up an absent key yields `none`.
* A JS `TypeError` (calling a method on `undefined`) is modelled by `Except`:
  computations that can crash return `Except String _` and a crash is
  `.error "TypeError: …"`.
* `path.basename` / `path.extname` / `path.join` are modelled for POSIX-style
  path strings, matching Node's behaviour on the inputs this code passes them.
-/

/-- JS truthiness of a possibly-undefined string (`undefined` and `""` are falsy). -/
def tstr : Option String → Bool
  | none => false
  | some s => !s.isEmpty

/-- JS truthiness of a possibly-undefined number (`undefined` and `0` are falsy). -/
def tnat : Option Nat → Bool
  | none => false
  | some n => n != 0

/-- JS `a || b` on possibly-undefined strings. -/
def jsOrStr (a b : Option String) : Option String :=
  if tstr a then a else b

/-- JS `a || b` on possibly-undefined numbers. -/
def jsOrNat (a b : Option Nat) : Option Nat :=
  if tnat a then a else b

/-- Reading a possibly-undefined value in a position where JS would invoke a
method on it: `undefined` raises a `TypeError`. -/
def jsStr : Option String → Except String String
  | none => .error "TypeError: Cannot read properties of undefined"
  | some s => .ok s

/-- Split a list of characters on a separator, JS `String.prototype.split` with a
one-character separator (`"".split(c) = [""]`, separators at the ends produce
empty fields). -/
def splitOnChar (c : Char) (l : List Char) : List (List Char) :=
  l.foldr
    (fun ch acc =>
      match acc with
      | [] => [[ch]]
      | cur :: rest => if ch == c then [] :: cur :: rest else (ch :: cur) :: rest)
    [[]]

/-- String-level wrapper for `splitOnChar`. -/
def strSplitOn (c : Char) (s : String) : List String :=
  (splitOnChar c s.data).map String.mk

/-- Node `path.basename`: the part after the last `/`. -/
def basename (s : String) : String :=
  (strSplitOn (Char.ofNat 47) s).getLastD ""

/-- Node `path.extname`: from the last `.` to the end, empty when there is no
dot or the only dot starts the name. -/
def extname (s : String) : String :=
  let cs := s.data
  let suff := (cs.reverse.takeWhile (fun c => c != Char.ofNat 46))
  if suff.length + 1 < cs.length then String.mk (Char.ofNat 46 :: suff.reverse)
  else if suff.length + 1 == cs.length then ""
  else ""

/-- JS `String.prototype.startsWith`. -/
def jsStartsWith (s pre : String) : Bool :=
  pre.data.isPrefixOf s.data

/-- JS `String.prototype.endsWith`. -/
def jsEndsWith (s suff : String) : Bool :=
  suff.data.isSuffixOf s.data

/-- JS `String.prototype.toLowerCase` (ASCII, which is all this code needs). -/
def jsToLower (s : String) : String :=
  String.mk (s.data.map Char.toLower)

/-- Node `path.join` with three components, as used throughout `prepare.js`. -/
def pathJoin3 (a b c : String) : String :=
  a ++ "/" ++ b ++ "/" ++ c

/-- Association-list model of a JS string-keyed object: assignment `m[k] = v`
replaces the value of an existing binding in place, else appends. -/
def rset : List (String × α) → String → α → List (String × α)
  | [], k, v => [(k, v)]
  | (k', v') :: rest, k, v =>
      if k' == k then (k', v) :: rest else (k', v') :: rset rest k v

/-- JS `delete m[k]`: remove the binding for `k`. -/
def rdel (m : List (String × α)) (k : String) : List (String × α) :=
  m.filter (fun p => !(p.1 == k))

/-- The resource sync map: target path to source path, `none` meaning the
"delete this target" sentinel (`null` in JS). -/
abbrev RMap := List (String × Option String)

/-- One `<icon>` declaration from the project descriptor, as returned by
`projectConfig.getIcons('android')`. `platform` models the truthiness of the
`platform` attribute (set when the declaration is platform-specific). -/
structure Icon where
  src : Option String := none
  density : Option String := none
  width : Option Nat := none
  height : Option Nat := none
  background : Option String := none
  foreground : Option String := none
  monochrome : Option String := none
  platform : Bool := false
deriving Repr, DecidableEq

/-- Identifier used for an icon in the aggregated error messages of
`updateIcons`: `icon.density ? icon.density : 'size=' + (icon.height || icon.width)`. -/
def iconIdent (i : Icon) : String :=
  if tstr i.density then i.density.getD ""
  else "size=" ++ (match jsOrNat i.height i.width with
    | none => "undefined"
    | some n => toString n)

/-- Condition collected into `errorMissingAttributes` in `updateIcons`:
exactly one of background/foreground present, or neither present and no `src`. -/
def offendsMissing (i : Icon) : Bool :=
  (tstr i.background && !tstr i.foreground) ||
  (!tstr i.background && tstr i.foreground) ||
  (!tstr i.background && !tstr i.foreground && !tstr i.src)

/-- Condition collected into `errorLegacyIconNeeded` in `updateIcons`:
a foreground with no `src` whose value is a color reference or a `.xml` vector. -/
def offendsLegacy (i : Icon) : Bool :=
  tstr i.foreground &&
  (!tstr i.src &&
    (jsStartsWith (i.foreground.getD "") "@color" ||
      extname (basename (i.foreground.getD "")) == ".xml"))

/-- The `icons[key].src = icon.foreground` mutation of `updateIcons`: when a
foreground is present, no legacy error applies, and no `src` is given, the
foreground becomes the legacy `src`. -/
def deriveSrc (i : Icon) : Icon :=
  if tstr i.foreground &&
      !(!tstr i.src &&
        (jsStartsWith (i.foreground.getD "") "@color" ||
          extname (basename (i.foreground.getD "")) == ".xml")) &&
      !tstr i.src
  then { i with src := i.foreground }
  else i

/-- The `errorMissingAttributes` list of `updateIcons`. -/
def errMissing (icons : List Icon) : List String :=
  icons.filterMap (fun i => if offendsMissing i then some (iconIdent i) else none)

/-- The `errorLegacyIconNeeded` list of `updateIcons`. -/
def errLegacy (icons : List Icon) : List String :=
  icons.filterMap (fun i => if offendsLegacy i then some (iconIdent i) else none)

/-- The `hasAdaptive` flag of `updateIcons`. -/
def hasAdaptive (icons : List Icon) : Bool :=
  icons.any (fun i => tstr i.foreground)

/-- First sentence pushed onto `errorMessage` when `errorMissingAttributes`
is non-empty. -/
def missingMsg (icons : List Icon) : String :=
  "One of the following attributes are set but missing the other for the density type: " ++
    String.intercalate ", " (errMissing icons) ++
    ". Please ensure that all require attributes are defined."

/-- Second sentence pushed onto `errorMessage` when `errorLegacyIconNeeded`
is non-empty. -/
def legacyMsg (icons : List Icon) : String :=
  "For the following icons with the density of: " ++
    String.intercalate ", " (errLegacy icons) ++
    ", adaptive foreground with a defined color or vector can not be used as a standard fallback icon for older Android devices. To support older Android environments, please provide a value for the src attribute."

/-- The aggregated error message thrown by `updateIcons`. -/
def errorMessageOf (icons : List Icon) : String :=
  String.intercalate " "
    ((if (errMissing icons).isEmpty then [] else [missingMsg icons]) ++
     (if (errLegacy icons).isEmpty then [] else [legacyMsg icons]))

/-- The size-to-density table of `prepareIcons`. -/
def SIZE_TO_DENSITY_MAP : List (Nat × String) :=
  [(36, "ldpi"), (48, "mdpi"), (72, "hdpi"), (96, "xhdpi"), (144, "xxhdpi"), (192, "xxxhdpi")]

/-- Lookup `SIZE_TO_DENSITY_MAP[icon_size]` (an absent size or an unmapped size
gives `undefined`). -/
def sizeToDensity : Option Nat → Option String
  | none => none
  | some n => SIZE_TO_DENSITY_MAP.lookup n

/-- The fixed set of Android density qualifiers. -/
def DENSITIES : List String := ["ldpi", "mdpi", "hdpi", "xhdpi", "xxhdpi", "xxxhdpi"]

/-- Inner helper `parseIcon` of `prepareIcons`: resolve a density and store the
icon in the per-density map unless the slot is held by a platform-specific icon. -/
def parseIcon (android_icons : List (String × Icon)) (icon : Icon) (icon_size : Option Nat) :
    List (String × Icon) :=
  let density := jsOrStr icon.density (sizeToDensity icon_size)
  if !tstr density then android_icons
  else
    let d := density.getD ""
    match List.lookup d android_icons with
    | some previous =>
        if previous.platform then android_icons else rset android_icons d icon
    | none => rset android_icons d icon

/-- JSON string escaping as done by `JSON.stringify` for the quote and
backslash characters (the only escapes relevant to the values this code logs). -/
def jsonEscapeChar (c : Char) : List Char :=
  if c == Char.ofNat 34 || c == Char.ofNat 92 then [Char.ofNat 92, c] else [c]

/-- Render a string as a JSON string literal. -/
def jsonStr (s : String) : String :=
  String.mk (Char.ofNat 34 :: (s.data.map jsonEscapeChar).flatten ++ [Char.ofNat 34])

/-- The `found`/`favor` object built by `prepareIcons` for the duplicate-default
diagnostic, as its ordered key/value pairs. -/
def foundPairs (i : Icon) : List (String × String) :=
  let p0 : List (String × String) :=
    if tstr i.background && tstr i.foreground && tstr i.monochrome then
      [("background", i.background.getD ""), ("foreground", i.foreground.getD ""),
        ("monochrome", i.monochrome.getD "")]
    else if tstr i.background && tstr i.foreground then
      [("background", i.background.getD ""), ("foreground", i.foreground.getD "")]
    else []
  if tstr i.src then p0 ++ [("src", i.src.getD "")] else p0

/-- `JSON.stringify` of a `found`/`favor` object. -/
def jsonOfPairs (ps : List (String × String)) : String :=
  "\x7b" ++ String.intercalate "," (ps.map (fun p => jsonStr p.1 ++ ":" ++ jsonStr p.2)) ++ "\x7d"

/-- The verbose message emitted when an extra default icon is ignored. -/
def extraDefaultMsg (icon default_icon : Icon) : String :=
  "Found extra default icon: " ++ jsonOfPairs (foundPairs icon) ++
    " and ignoring in favor of " ++ jsonOfPairs (foundPairs default_icon) ++ "."

/-- Result of `prepareIcons`, plus the verbose messages it emitted. -/
structure Prepared where
  android_icons : List (String × Icon)
  default_icon : Option Icon
  log : List String
deriving Repr, DecidableEq

/-- Condition under which `prepareIcons` treats a declaration as a candidate for
the default icon: no width/height and no density. -/
def isDefaultCandidate (icon : Icon) : Bool :=
  !tnat (jsOrNat icon.width icon.height) && !tstr icon.density

/-- One iteration of the `prepareIcons` loop. -/
def prepareIconsStep (st : Prepared) (icon : Icon) : Prepared :=
  if isDefaultCandidate icon then
    match st.default_icon with
    | some di => { st with log := st.log ++ [extraDefaultMsg icon di] }
    | none => { st with default_icon := some icon }
  else
    { st with android_icons := parseIcon st.android_icons icon (jsOrNat icon.width icon.height) }

/-- `prepareIcons` of `prepare.js`. -/
def prepareIcons (icons : List Icon) : Prepared :=
  icons.foldl prepareIconsStep ⟨[], none, []⟩

/-- The validation phase of `updateIcons` followed by `prepareIcons`: throws the
aggregated error message, otherwise resolves the (src-derived) icons. -/
def updateIconsResolve (icons : List Icon) : Except String Prepared :=
  if !(errMissing icons).isEmpty || !(errLegacy icons).isEmpty then
    .error (errorMessageOf icons)
  else .ok (prepareIcons (icons.map deriveSrc))

/-- The `.9.png` rename of `getAdaptiveImageResourcePath`
(`name.replace(/\.png$/, '.9.png')`, applied when the source is a nine-patch). -/
def rename9 (name sourceName : String) : String :=
  if jsEndsWith sourceName ".9.png" then
    (if jsEndsWith name ".png" then
      String.mk (name.data.take (name.data.length - 4)) ++ ".9.png"
    else name)
  else name

/-- `getAdaptiveImageResourcePath` of `prepare.js`. -/
def getAdaptiveImageResourcePath (resourcesDir type density name sourceName : String) : String :=
  pathJoin3 resourcesDir
    (if density.isEmpty then type else type ++ "-" ++ density ++ "-v26")
    (rename9 name sourceName)

/-- `getImageResourcePath` of `prepare.js` (nine-patch sources keep `.9.png`). -/
def getImageResourcePath (resourcesDir type density name sourceName : String) : String :=
  let ext := if jsEndsWith sourceName ".9.png" then ".9.png" else jsToLower (extname sourceName)
  pathJoin3 resourcesDir (if density.isEmpty then type else type ++ "-" ++ density) (name ++ ext)

/-- Loop-scoped state of `updateIconResourceForAdaptive`: the classification
variables declared outside the per-density loop, the shared resource map, and
the adaptive-icon XML files written directly to disk. -/
structure AdState where
  background : Option String := none
  foreground : Option String := none
  monochrome : Option String := none
  rmap : RMap := []
  writes : List (String × String) := []
deriving Repr, DecidableEq

/-- The background/foreground classification chain of the per-density loop of
`updateIconResourceForAdaptive`: a color reference is used verbatim as the XML
value, a vector or raster asset is added to the resource map under a `-v26`
mipmap target. Returns the XML drawable value and the updated map. -/
def loopSlotAdd (resDir density asset baseName defVal : String) (m : RMap) : String × RMap :=
  if jsStartsWith asset "@color" then (asset, m)
  else if extname (basename asset) == ".xml" then
    (defVal, rset m
      (getAdaptiveImageResourcePath resDir "mipmap" density (baseName ++ ".xml") (basename asset))
      (some asset))
  else if extname (basename asset) == ".png" then
    (defVal, rset m
      (getAdaptiveImageResourcePath resDir "mipmap" density (baseName ++ ".png") (basename asset))
      (some asset))
  else (defVal, m)

/-- The monochrome classification of the per-density loop (no color case). -/
def loopMonoAdd (resDir density asset : String) (m : RMap) : RMap :=
  if extname (basename asset) == ".xml" then
    rset m
      (getAdaptiveImageResourcePath resDir "mipmap" density "ic_launcher_monochrome.xml" (basename asset))
      (some asset)
  else if extname (basename asset) == ".png" then
    rset m
      (getAdaptiveImageResourcePath resDir "mipmap" density "ic_launcher_monochrome.png" (basename asset))
      (some asset)
  else m

/-- The generated adaptive-icon descriptor with a monochrome layer. -/
def icLauncherContentMono (backgroundVal foregroundVal monochromeVal : String) : String :=
  "<?xml version=\"1.0\" encoding=\"utf-8\"?>\n" ++
  "<adaptive-icon xmlns:android=\"http://schemas.android.com/apk/res/android\">\n" ++
  "    <background android:drawable=\"" ++ backgroundVal ++ "\" />\n" ++
  "    <foreground android:drawable=\"" ++ foregroundVal ++ "\" />\n" ++
  "    <monochrome android:drawable=\"" ++ monochromeVal ++ "\" />\n" ++
  "</adaptive-icon>"

/-- The generated adaptive-icon descriptor without a monochrome layer. -/
def icLauncherContentPlain (backgroundVal foregroundVal : String) : String :=
  "<?xml version=\"1.0\" encoding=\"utf-8\"?>\n" ++
  "<adaptive-icon xmlns:android=\"http://schemas.android.com/apk/res/android\">\n" ++
  "    <background android:drawable=\"" ++ backgroundVal ++ "\" />\n" ++
  "    <foreground android:drawable=\"" ++ foregroundVal ++ "\" />\n" ++
  "</adaptive-icon>"

/-- One iteration of the per-density loop of `updateIconResourceForAdaptive`. -/
def adaptiveIter (resDir : String) (st : AdState) (e : String × Icon) : AdState :=
  let density := e.1
  let icon := e.2
  let background := icon.background
  let foreground := icon.foreground
  let monochrome0 := icon.monochrome
  let hasAdaptiveIcons := tstr background && tstr foreground
  let forceDrop := tstr monochrome0 && !hasAdaptiveIcons
  let monochrome := if forceDrop then none else monochrome0
  let hasMonochromeIcon := if forceDrop then false else tstr monochrome0
  if !hasAdaptiveIcons then
    { st with background := background, foreground := foreground, monochrome := monochrome }
  else
    let bgRes := loopSlotAdd resDir density (background.getD "")
      "ic_launcher_background" "@mipmap/ic_launcher_background" st.rmap
    let fgRes := loopSlotAdd resDir density (foreground.getD "")
      "ic_launcher_foreground" "@mipmap/ic_launcher_foreground" bgRes.2
    let m3 := if hasMonochromeIcon then loopMonoAdd resDir density (monochrome.getD "") fgRes.2
      else fgRes.2
    let content := if hasMonochromeIcon then
        icLauncherContentMono bgRes.1 fgRes.1 "@mipmap/ic_launcher_monochrome"
      else icLauncherContentPlain bgRes.1 fgRes.1
    let launcherXmlPath := pathJoin3 resDir ("mipmap-" ++ density ++ "-v26") "ic_launcher.xml"
    { background := background, foreground := foreground, monochrome := monochrome,
      rmap := rdel m3 launcherXmlPath,
      writes := st.writes ++ [(launcherXmlPath, content)] }

/-- The default-icon section of `updateIconResourceForAdaptive` for one of
background/foreground: the branch taken is decided by the *leftover* loop
variable, the path added uses the default icon's own asset (reading it as a
string crashes when it is `undefined`). -/
def defaultSlotAdd (resDir leftover baseName : String) (dv : Option String) (m : RMap) :
    Except String RMap :=
  if jsStartsWith leftover "@color" then .ok m
  else if extname (basename leftover) == ".xml" then
    match dv with
    | none => .error "TypeError: Cannot read properties of undefined"
    | some s => .ok (rset m
        (getAdaptiveImageResourcePath resDir "mipmap" "mdpi" (baseName ++ ".xml") (basename s))
        (some s))
  else if extname (basename leftover) == ".png" then
    match dv with
    | none => .error "TypeError: Cannot read properties of undefined"
    | some s => .ok (rset m
        (getAdaptiveImageResourcePath resDir "mipmap" "mdpi" (baseName ++ ".png") (basename s))
        (some s))
  else .ok m

/-- The monochrome part of the default-icon section (no color case). -/
def defaultMonoAdd (resDir leftover : String) (dv : Option String) (m : RMap) :
    Except String RMap :=
  if extname (basename leftover) == ".xml" then
    match dv with
    | none => .error "TypeError: Cannot read properties of undefined"
    | some s => .ok (rset m
        (getAdaptiveImageResourcePath resDir "mipmap" "mdpi" "ic_launcher_monochrome.xml" (basename s))
        (some s))
  else if extname (basename leftover) == ".png" then
    match dv with
    | none => .error "TypeError: Cannot read properties of undefined"
    | some s => .ok (rset m
        (getAdaptiveImageResourcePath resDir "mipmap" "mdpi" "ic_launcher_monochrome.png" (basename s))
        (some s))
  else .ok m

/-- The `default_icon && !android_icons.mdpi` fallback block of
`updateIconResourceForAdaptive`. Reading a loop variable that was never
assigned (`background.startsWith` on `undefined`) is a `TypeError`. -/
def adaptiveDefaultBlock (resDir : String) (di : Icon) (st : AdState) : Except String RMap :=
  match st.background with
  | none => .error "TypeError: Cannot read properties of undefined"
  | some bg =>
    match defaultSlotAdd resDir bg "ic_launcher_background" di.background st.rmap with
    | .error e => .error e
    | .ok m1 =>
      match st.foreground with
      | none => .error "TypeError: Cannot read properties of undefined"
      | some fg =>
        match defaultSlotAdd resDir fg "ic_launcher_foreground" di.foreground m1 with
        | .error e => .error e
        | .ok m2 =>
          if tstr st.monochrome then defaultMonoAdd resDir (st.monochrome.getD "") di.monochrome m2
          else .ok m2

/-- `updateIconResourceForAdaptive` of `prepare.js`: the per-density loop over
`android_icons`, then the default-icon fallback. Returns the updated resource
map and the adaptive-icon descriptor files written directly to disk. -/
def updateIconResourceForAdaptive (android_icons : List (String × Icon))
    (default_icon : Option Icon) (resourceMap : RMap) (resDir : String) :
    Except String (RMap × List (String × String)) :=
  let st := android_icons.foldl (adaptiveIter resDir) { rmap := resourceMap }
  match default_icon with
  | some di =>
      if (List.lookup "mdpi" android_icons).isSome then .ok (st.rmap, st.writes)
      else
        match adaptiveDefaultBlock resDir di st with
        | .error e => .error e
        | .ok m => .ok (m, st.writes)
  | none => .ok (st.rmap, st.writes)

/-- One iteration of the per-density loop of `updateIconResourceForLegacy`. -/
def legacyIter (resDir : String) (acc : Except String RMap) (e : String × Icon) :
    Except String RMap :=
  match acc with
  | .error er => .error er
  | .ok m =>
    match e.2.src with
    | none => .error "TypeError: Cannot read properties of undefined"
    | some s => .ok (rset m
        (getImageResourcePath resDir "mipmap" e.1 "ic_launcher" (basename s)) (some s))

/-- `updateIconResourceForLegacy` of `prepare.js`. -/
def updateIconResourceForLegacy (android_icons : List (String × Icon))
    (default_icon : Option Icon) (resourceMap : RMap) (resDir : String) : Except String RMap :=
  match android_icons.foldl (legacyIter resDir) (.ok resourceMap) with
  | .error e => .error e
  | .ok m =>
    match default_icon with
    | some di =>
        if (List.lookup "mdpi" android_icons).isSome then .ok m
        else
          match di.src with
          | none => .error "TypeError: Cannot read properties of undefined"
          | some s => .ok (rset m
              (getImageResourcePath resDir "mipmap" "mdpi" "ic_launcher" (basename s)) (some s))
    | none => .ok m

/-- `updateIcons` of `prepare.js` after the initial filesystem scan: validation,
resolution, adaptive pass (when any foreground exists), legacy pass. The initial
resource map (built by `mapImageResources` from the existing density folders)
is a parameter. Returns the final map handed to `FileUpdater.updatePaths` and
the descriptor files written directly to disk. -/
def updateIconsModel (icons : List Icon) (resourceMap : RMap) (resDir : String) :
    Except String (RMap × List (String × String)) :=
  match updateIconsResolve icons with
  | .error e => .error e
  | .ok prep =>
    match (if hasAdaptive icons then
        updateIconResourceForAdaptive prep.android_icons prep.default_icon resourceMap resDir
      else .ok (resourceMap, [])) with
    | .error e => .error e
    | .ok res =>
      match updateIconResourceForLegacy prep.android_icons prep.default_icon res.1 resDir with
      | .error e => .error e
      | .ok m2 => .ok (m2, res.2)

/-- Name of the color node managed in `cdv_colors.xml`. -/
def iconBgColorName : String := "cdv_splashscreen_icon_background"

/-- The apostrophe escaping `splashIconBackgroundColor.replace(/'/g, "\\'")`. -/
def jsEscapeApos (s : String) : String :=
  String.mk (s.data.map
    (fun c => if c == Char.ofNat 39 then [Char.ofNat 92, Char.ofNat 39] else [c])).flatten

/-- XML `find` by name attribute: the first matching node. -/
def findKey (l : List (String × String)) (k : String) : Option (String × String) :=
  l.find? (fun p => p.1 == k)

/-- XML `remove` of the first node with the given name. -/
def eraseFirstKey : List (String × String) → String → List (String × String)
  | [], _ => []
  | p :: rest, k => if p.1 == k then rest else p :: eraseFirstKey rest k

/-- Setting the text of the first node with the given name. -/
def setFirstKey : List (String × String) → String → String → List (String × String)
  | [], _, _ => []
  | p :: rest, k, v => if p.1 == k then (p.1, v) :: rest else p :: setFirstKey rest k v

/-- `updateProjectSplashScreenIconBackgroundColor` of `prepare.js`; the colors
document is modelled as its ordered list of `<color name=…>text</color>` nodes. -/
def updateProjectSplashScreenIconBackgroundColor (splashIconBackgroundColor : Option String)
    (colors : List (String × String)) : List (String × String) :=
  let currentColor := findKey colors iconBgColorName
  if !tstr splashIconBackgroundColor && currentColor.isSome then
    eraseFirstKey colors iconBgColorName
  else if tstr splashIconBackgroundColor then
    (if currentColor.isSome then
      setFirstKey colors iconBgColorName (jsEscapeApos (splashIconBackgroundColor.getD ""))
    else colors ++ [(iconBgColorName, jsEscapeApos (splashIconBackgroundColor.getD ""))])
  else colors

/-- Theme item name managed by the icon-background-color case of
`updateProjectTheme`. -/
def themeIconBgKey : String := "windowSplashScreenIconBackgroundColor"

/-- The `windowSplashScreenIconBackgroundColor` case of `updateProjectTheme`;
the splash-screen style is modelled as its ordered list of
`<item name=…>text</item>` nodes. -/
def updateThemeIconBackgroundColor (cdvConfigPrefValue : Option String)
    (splashScreenTheme : List (String × String)) : List (String × String) :=
  let themeTargetNode := findKey splashScreenTheme themeIconBgKey
  if !tstr cdvConfigPrefValue && themeTargetNode.isSome then
    eraseFirstKey splashScreenTheme themeIconBgKey
  else if tstr cdvConfigPrefValue then
    (if themeTargetNode.isSome then
      setFirstKey splashScreenTheme themeIconBgKey "@color/cdv_splashscreen_icon_background"
    else splashScreenTheme ++ [(themeIconBgKey, "@color/cdv_splashscreen_icon_background")])
  else splashScreenTheme

/-- Message emitted when the `AndroidEdgeToEdge` preference is absent. -/
def edgeToEdgeNotSetMsg : String :=
  "The preference name \"AndroidEdgeToEdge\" was not set. Defaulting to \"false\"."

/-- Message emitted when the `AndroidEdgeToEdge` preference has an invalid value. -/
def edgeToEdgeInvalidMsg : String :=
  "Preference name \"AndroidEdgeToEdge\" has an invalid value. Valid values are \"true\" or \"false\". Defaulting to \"false\""

/-- The edge-to-edge resolution of `updateProjectTheme`: the resolved `hasE2E`
flag and the verbose messages emitted. -/
def resolveEdgeToEdge (preferenceE2E : Option String) : Bool × List String :=
  if !tstr preferenceE2E then (false, [edgeToEdgeNotSetMsg])
  else
    let p := preferenceE2E.getD ""
    let hasInvalid := p != "true" && p != "false"
    (if hasInvalid then false else p == "true",
      if hasInvalid then [edgeToEdgeInvalidMsg] else [])

/-- The text written to the `android:windowOptOutEdgeToEdgeEnforcement` theme
item: `!hasE2E ? 'true' : 'false'`. -/
def edgeToEdgeOptOutText (preferenceE2E : Option String) : String :=
  if !(resolveEdgeToEdge preferenceE2E).1 then "true" else "false"

/-- Numeric value of a decimal digit string. -/
def digitsVal (s : String) : Nat :=
  s.data.foldl (fun a c => a * 10 + (c.toNat - 48)) 0

/-- JS unary plus on a string, for the decimal components this code meets:
`+"" = 0`, digits parse, anything else is `NaN` (`none`). -/
def jsToNumber (s : String) : Option Nat :=
  if s.isEmpty then some 0
  else if s.data.all Char.isDigit then some (digitsVal s) else none

/-- `+nums[i]`: indexing past the end gives `undefined`, and `+undefined` is `NaN`. -/
def jsNumAt (nums : List String) (i : Nat) : Option Nat :=
  match nums.get? i with
  | none => none
  | some s => jsToNumber s

/-- `if (+nums[i]) versionCode += +nums[i] * mult`: `NaN` and `0` are falsy. -/
def addIfTruthy (v : Option Nat) (mult : Nat) : Nat :=
  match v with
  | none => 0
  | some n => if n == 0 then 0 else n * mult

/-- `default_versionCode` of `prepare.js`. -/
def default_versionCode (version : String) : Nat :=
  let nums := strSplitOn (Char.ofNat 46) ((strSplitOn (Char.ofNat 45) version).headD "")
  addIfTruthy (jsNumAt nums 0) 10000 + addIfTruthy (jsNumAt nums 1) 100 +
    addIfTruthy (jsNumAt nums 2) 1


/-- Density under which `parseIcon` would store a declaration: `none` for
default candidates and for declarations whose density cannot be resolved. -/
def resolvedDensity (icon : Icon) : Option String :=
  if isDefaultCandidate icon then none
  else
    let density := jsOrStr icon.density (sizeToDensity (jsOrNat icon.width icon.height))
    if tstr density then density else none

/-- The evolution of one density slot of `android_icons` across one
declaration: a slot held by a platform-specific icon is kept, otherwise any
declaration resolving to this density takes the slot. -/
def slotStep (d : String) (s : Option Icon) (i : Icon) : Option Icon :=
  if resolvedDensity i == some d then
    match s with
    | some p => if p.platform then s else some i
    | none => some i
  else s

/-- Characters that cannot occur in a density qualifier: the path separator and
the dash used by the `-v26` suffix. -/
def notSep (c : Char) : Bool := !(c == Char.ofNat 47 || c == Char.ofNat 45)

/-- A density string free of `/` and `-`; every member of `DENSITIES` is. -/
def cleanDensity (d : String) : Bool := d.data.all notSep

/-- The error carried by an `Except`, `none` on success (used to state
evaluation facts decidably). -/
def errOf : Except String α → Option String
  | .error e => some e
  | .ok _ => none

lemma strEq_of_data {s t : String} (h : s.data = t.data) : s = t := by
  cases s; cases t; cases h; rfl

lemma strData_append (s t : String) : (s ++ t).data = s.data ++ t.data := by
  cases s; cases t; rfl

lemma jsToNumber_digits (s : String) (hd : s.data.all Char.isDigit = true) :
    jsToNumber s = some (digitsVal s) := by
  unfold jsToNumber
  by_cases h : s.isEmpty
  · rw [String.isEmpty_iff] at h
    subst h
    simp [digitsVal]
  · simp [h, hd]

lemma addIfTruthy_some (n mult : Nat) : addIfTruthy (some n) mult = n * mult := by
  unfold addIfTruthy
  by_cases h : n = 0
  · simp [h]
  · simp [h]

/-- C10: `default_versionCode` computes MAJOR*10000 + MINOR*100 + PATCH from the
dot-separated numeric components of the version string before any `-` suffix;
in particular `default_versionCode "2.3.4" = 20304` and
`default_versionCode "1.0" = 10000`. -/
theorem default_versionCode_spec (version sa sb sc : String)
    (h : strSplitOn (Char.ofNat 46) ((strSplitOn (Char.ofNat 45) version).headD "") = [sa, sb, sc])
    (ha : sa.data.all Char.isDigit = true)
    (hb : sb.data.all Char.isDigit = true)
    (hc : sc.data.all Char.isDigit = true) :
    default_versionCode version
      = digitsVal sa * 10000 + digitsVal sb * 100 + digitsVal sc ∧
    default_versionCode "2.3.4" = 20304 ∧
    default_versionCode "1.0" = 10000 := by
  refine ⟨?_, by decide, by decide⟩
  unfold default_versionCode
  rw [h]
  simp only [jsNumAt, List.get?]
  rw [jsToNumber_digits sa ha, jsToNumber_digits sb hb, jsToNumber_digits sc hc,
    addIfTruthy_some, addIfTruthy_some, addIfTruthy_some]
  ring

/-- Witness for C10 at the concrete inputs named by the claim. -/
theorem default_versionCode_spec_witness :
    default_versionCode "2.3.4"
      = digitsVal "2" * 10000 + digitsVal "3" * 100 + digitsVal "4" ∧
    default_versionCode "2.3.4" = 20304 ∧
    default_versionCode "1.0" = 10000 :=
  default_versionCode_spec "2.3.4" "2" "3" "4" (by decide) (by decide) (by decide) (by decide)

/-- C9: the resolved edge-to-edge flag is true exactly for the exact string
"true"; any other non-empty value resolves to false and emits the invalid-value
diagnostic; an absent (or empty) value defaults to false; the opt-out theme
item text is "true" exactly when the resolved flag is false. -/
theorem edgeToEdge_spec (pref : Option String) :
    ((resolveEdgeToEdge pref).1 = (pref == some "true")) ∧
    (edgeToEdgeOptOutText pref = "true" ↔ (resolveEdgeToEdge pref).1 = false) ∧
    (∀ s : String, pref = some s → s ≠ "" → s ≠ "true" → s ≠ "false" →
      (resolveEdgeToEdge pref).2 = [edgeToEdgeInvalidMsg]) ∧
    (pref = none → (resolveEdgeToEdge pref).1 = false) := by
  match pref with
  | none => refine ⟨by decide, by decide, ?_, by decide⟩; intro s hs; cases hs
  | some s =>
    by_cases he : s = ""
    · subst he
      refine ⟨by decide, by decide, ?_, by decide⟩
      intro t ht hne
      cases ht
      exact absurd rfl hne
    · by_cases ht : s = "true"
      · subst ht
        refine ⟨by decide, by decide, ?_, by decide⟩
        intro t hts h1 h2
        cases hts
        exact absurd rfl h2
      · by_cases hf : s = "false"
        · subst hf
          refine ⟨by decide, by decide, ?_, by decide⟩
          intro t hts h1 h2 h3
          exact absurd (by cases hts; rfl) h3
        · have hemp : s.isEmpty = false := by
            by_contra hx
            rw [Bool.not_eq_false, String.isEmpty_iff] at hx
            exact he hx
          have hbeq : (some s == some "true") = false :=
            beq_eq_false_iff_ne.mpr (by simp [ht])
          constructor
          · rw [hbeq]
            simp [resolveEdgeToEdge, tstr, hemp, ht, hf]
          constructor
          · simp [edgeToEdgeOptOutText, resolveEdgeToEdge, tstr, hemp, ht, hf]
          constructor
          · intro t hts h1 h2 h3
            cases hts
            simp [resolveEdgeToEdge, tstr, hemp, ht, hf]
          · intro hx; cases hx

/-- Witness for C9: "TRUE" (wrong case) resolves to false with the diagnostic,
"true" resolves to true. -/
theorem edgeToEdge_spec_witness :
    (resolveEdgeToEdge (some "TRUE")).1 = false ∧
    (resolveEdgeToEdge (some "TRUE")).2 = [edgeToEdgeInvalidMsg] ∧
    (resolveEdgeToEdge (some "true")).1 = true ∧
    edgeToEdgeOptOutText (some "TRUE") = "true" :=
  ⟨by rw [(edgeToEdge_spec (some "TRUE")).1]; decide,
    (edgeToEdge_spec (some "TRUE")).2.2.1 "TRUE" rfl (by decide) (by decide) (by decide),
    by rw [(edgeToEdge_spec (some "true")).1]; decide,
    ((edgeToEdge_spec (some "TRUE")).2.1).mpr
      (by rw [(edgeToEdge_spec (some "TRUE")).1]; decide)⟩

lemma findKey_eq_none_of_countP_zero (l : List (String × String)) (k : String)
    (h : l.countP (fun p => p.1 == k) = 0) : findKey l k = none := by
  unfold findKey
  rw [List.find?_eq_none]
  intro p hp
  rw [List.countP_eq_zero] at h
  exact fun hb => h p hp hb

lemma countP_zero_of_findKey_none (l : List (String × String)) (k : String)
    (h : findKey l k = none) : l.countP (fun p => p.1 == k) = 0 := by
  rw [List.countP_eq_zero]
  intro p hp
  unfold findKey at h
  exact List.find?_eq_none.mp h p hp

lemma findKey_eraseFirst_of_countP_le_one (l : List (String × String)) (k : String)
    (h : l.countP (fun p => p.1 == k) ≤ 1) : findKey (eraseFirstKey l k) k = none := by
  induction l with
  | nil => rfl
  | cons p rest ih =>
    rw [List.countP_cons] at h
    by_cases hp : p.1 == k
    · have hrest : rest.countP (fun q => q.1 == k) = 0 := by
        simp only [hp, if_pos] at h
        omega
      simp only [eraseFirstKey, hp, if_pos]
      exact findKey_eq_none_of_countP_zero rest k hrest
    · simp only [hp, if_false] at h
      simp only [eraseFirstKey, hp]
      rw [if_neg (by simp)]
      unfold findKey at ih ⊢
      rw [List.find?_cons_of_neg _ (by simpa using hp)]
      exact ih (by omega)

lemma countP_eraseFirstKey_le (l : List (String × String)) (k : String) :
    (eraseFirstKey l k).countP (fun p => p.1 == k) ≤ l.countP (fun p => p.1 == k) := by
  induction l with
  | nil => simp [eraseFirstKey]
  | cons p rest ih =>
    by_cases hp : p.1 == k
    · simp only [eraseFirstKey, hp, if_pos]
      rw [List.countP_cons]
      omega
    · simp only [eraseFirstKey, hp]
      rw [if_neg (by simp), List.countP_cons, List.countP_cons]
      omega

lemma countP_setFirstKey (l : List (String × String)) (k v k2 : String) :
    (setFirstKey l k v).countP (fun p => p.1 == k2) = l.countP (fun p => p.1 == k2) := by
  induction l with
  | nil => rfl
  | cons p rest ih =>
    by_cases hp : p.1 == k
    · simp only [setFirstKey, hp, if_pos]
      rw [List.countP_cons, List.countP_cons]
    · simp only [setFirstKey, hp]
      rw [if_neg (by simp), List.countP_cons, List.countP_cons, ih]

lemma countP_update_icon_bg (c : Option String) (colors : List (String × String))
    (h : colors.countP (fun p => p.1 == iconBgColorName) ≤ 1) :
    (updateProjectSplashScreenIconBackgroundColor c colors).countP
      (fun p => p.1 == iconBgColorName) ≤ 1 := by
  unfold updateProjectSplashScreenIconBackgroundColor
  by_cases hc : tstr c
  · rw [if_neg (by simp [hc]), if_pos hc]
    by_cases hcur : (findKey colors iconBgColorName).isSome
    · rw [if_pos hcur, countP_setFirstKey]
      exact h
    · rw [if_neg hcur, List.countP_append,
        countP_zero_of_findKey_none colors iconBgColorName
          (Option.not_isSome_iff_eq_none.mp hcur)]
      simp [List.countP_cons]
  · by_cases hcur : (findKey colors iconBgColorName).isSome
    · rw [if_pos (by simp [hc, hcur])]
      exact le_trans (countP_eraseFirstKey_le colors iconBgColorName) h
    · rw [if_neg (by simp [hcur]), if_neg (by simp [hc])]
      exact h

lemma unset_pass_removes (colors : List (String × String))
    (h : colors.countP (fun p => p.1 == iconBgColorName) ≤ 1) :
    findKey (updateProjectSplashScreenIconBackgroundColor none colors) iconBgColorName = none := by
  unfold updateProjectSplashScreenIconBackgroundColor
  by_cases hcur : (findKey colors iconBgColorName).isSome
  · rw [if_pos (by simp [tstr, hcur])]
    exact findKey_eraseFirst_of_countP_le_one colors iconBgColorName h
  · rw [if_neg (by simp [hcur]), if_neg (by simp [tstr])]
    exact Option.not_isSome_iff_eq_none.mp hcur

lemma unset_theme_pass_removes (style : List (String × String))
    (h : style.countP (fun p => p.1 == themeIconBgKey) ≤ 1) :
    findKey (updateThemeIconBackgroundColor none style) themeIconBgKey = none := by
  unfold updateThemeIconBackgroundColor
  by_cases hcur : (findKey style themeIconBgKey).isSome
  · rw [if_pos (by simp [tstr, hcur])]
    exact findKey_eraseFirst_of_countP_le_one style themeIconBgKey h
  · rw [if_neg (by simp [hcur]), if_neg (by simp [tstr])]
    exact Option.not_isSome_iff_eq_none.mp hcur

/-- C8: with the icon-background-color preference unset, materialization leaves
no `cdv_splashscreen_icon_background` color node in the colors descriptor;
setting the preference and then materializing again with it unset also leaves
no such node (round trip); and the matching theme item is likewise removed from
the splash-screen style when the preference is unset. (The descriptor files
managed by this code contain the node at most once.) -/
theorem iconBackgroundColor_roundtrip (colors style : List (String × String)) (c : Option String)
    (hcol : colors.countP (fun p => p.1 == iconBgColorName) ≤ 1)
    (hsty : style.countP (fun p => p.1 == themeIconBgKey) ≤ 1) :
    findKey (updateProjectSplashScreenIconBackgroundColor none colors) iconBgColorName = none ∧
    findKey (updateProjectSplashScreenIconBackgroundColor none
      (updateProjectSplashScreenIconBackgroundColor c colors)) iconBgColorName = none ∧
    findKey (updateThemeIconBackgroundColor none style) themeIconBgKey = none :=
  ⟨unset_pass_removes colors hcol,
    unset_pass_removes _ (countP_update_icon_bg c colors hcol),
    unset_theme_pass_removes style hsty⟩

/-- Witness for C8: a concrete colors file and style, setting the color
`#FF0000` and then clearing it. -/
theorem iconBackgroundColor_roundtrip_witness :
    findKey (updateProjectSplashScreenIconBackgroundColor none
      [("cdv_splashscreen_background", "#FFFFFF"), ("cdv_splashscreen_icon_background", "#00FF00")])
      iconBgColorName = none ∧
    findKey (updateProjectSplashScreenIconBackgroundColor none
      (updateProjectSplashScreenIconBackgroundColor (some "#FF0000")
        [("cdv_splashscreen_background", "#FFFFFF"), ("cdv_splashscreen_icon_background", "#00FF00")]))
      iconBgColorName = none ∧
    findKey (updateThemeIconBackgroundColor none
      [("windowSplashScreenBackground", "@color/cdv_splashscreen_background"),
       ("windowSplashScreenIconBackgroundColor", "@color/cdv_splashscreen_icon_background")])
      themeIconBgKey = none :=
  iconBackgroundColor_roundtrip
    [("cdv_splashscreen_background", "#FFFFFF"), ("cdv_splashscreen_icon_background", "#00FF00")]
    [("windowSplashScreenBackground", "@color/cdv_splashscreen_background"),
      ("windowSplashScreenIconBackgroundColor", "@color/cdv_splashscreen_icon_background")]
    (some "#FF0000") (by decide) (by decide)

/-- C4: when any declaration has exactly one of background/foreground, or
neither plus no src, or an adaptive-only foreground (color/vector) without src,
`updateIcons` throws the single aggregated error message; no resource map is
built and nothing is written (the whole pipeline returns the error), and each
offending declaration's identifier is enumerated in the corresponding error
class. -/
theorem updateIcons_validation (icons : List Icon)
    (h : errMissing icons ≠ [] ∨ errLegacy icons ≠ []) :
    updateIconsResolve icons = .error (errorMessageOf icons) ∧
    (∀ m0 : RMap, ∀ resDir : String,
      updateIconsModel icons m0 resDir = .error (errorMessageOf icons)) ∧
    (∀ i ∈ icons, offendsMissing i = true → iconIdent i ∈ errMissing icons) ∧
    (∀ i ∈ icons, offendsLegacy i = true → iconIdent i ∈ errLegacy icons) := by
  have hcond : (!(errMissing icons).isEmpty || !(errLegacy icons).isEmpty) = true := by
    rcases h with h | h
    · rw [← List.isEmpty_eq_false] at h
      simp [h]
    · rw [← List.isEmpty_eq_false] at h
      simp [h]
  have h1 : updateIconsResolve icons = .error (errorMessageOf icons) := by
    unfold updateIconsResolve
    rw [if_pos hcond]
  refine ⟨h1, ?_, ?_, ?_⟩
  · intro m0 resDir
    unfold updateIconsModel
    rw [h1]
  · intro i hi hoff
    unfold errMissing
    rw [List.mem_filterMap]
    exact ⟨i, hi, by rw [hoff]; rfl⟩
  · intro i hi hoff
    unfold errLegacy
    rw [List.mem_filterMap]
    exact ⟨i, hi, by rw [hoff]; rfl⟩

/-- Witness for C4: one declaration with only a color foreground (missing pair
and adaptive-only foreground at once). -/
theorem updateIcons_validation_witness :
    updateIconsResolve [{ foreground := some "@color/x", density := some "hdpi" }]
      = .error (errorMessageOf [{ foreground := some "@color/x", density := some "hdpi" }]) ∧
    updateIconsModel [{ foreground := some "@color/x", density := some "hdpi" }] [] "res"
      = .error (errorMessageOf [{ foreground := some "@color/x", density := some "hdpi" }]) ∧
    iconIdent { foreground := some "@color/x", density := some "hdpi" }
      ∈ errMissing [{ foreground := some "@color/x", density := some "hdpi" }] ∧
    iconIdent { foreground := some "@color/x", density := some "hdpi" }
      ∈ errLegacy [{ foreground := some "@color/x", density := some "hdpi" }] := by
  obtain ⟨a, b, c, d⟩ :=
    updateIcons_validation [{ foreground := some "@color/x", density := some "hdpi" }]
      (Or.inl (by decide))
  exact ⟨a, b [] "res",
    c { foreground := some "@color/x", density := some "hdpi" } (by decide) (by decide),
    d { foreground := some "@color/x", density := some "hdpi" } (by decide) (by decide)⟩

/-- C7 counterexample: a declaration whose foreground is a raster image
(`f.png`, not a color reference, not an `.xml` vector) with no `src` and no
background makes validation fail (the missing-pair class fires), so validation
does not succeed for every such declaration. -/
theorem rasterForeground_counterexample :
    (updateIconsResolve [{ foreground := some "f.png" }]).isOk = false ∧
    jsStartsWith "f.png" "@color" = false ∧
    extname (basename "f.png") ≠ ".xml" ∧
    (Icon.src { foreground := some "f.png" }) = none ∧
    offendsMissing { foreground := some "f.png" } = true := by
  decide

/-- C7 amended: for every icon declaration whose foreground is a raster image
(not a color reference and not an `.xml` vector), whose background is also set,
and whose src is unset, the declaration contributes to neither validation error
class and its resolved src equals its foreground. -/
theorem rasterForeground_derives_src (i : Icon) (fg : String)
    (hf : i.foreground = some fg) (hne : fg ≠ "")
    (hcol : jsStartsWith fg "@color" = false)
    (hxml : extname (basename fg) ≠ ".xml")
    (hbg : tstr i.background = true)
    (hsrc : tstr i.src = false) :
    offendsMissing i = false ∧ offendsLegacy i = false ∧ (deriveSrc i).src = some fg := by
  have hemp : fg.isEmpty = false := by
    by_contra hx
    rw [Bool.not_eq_false, String.isEmpty_iff] at hx
    exact hne hx
  have hfg : tstr i.foreground = true := by rw [hf]; simp [tstr, hemp]
  have hxml' : (extname (basename fg) == ".xml") = false := beq_eq_false_iff_ne.mpr hxml
  refine ⟨?_, ?_, ?_⟩
  · simp [offendsMissing, hfg, hbg, hsrc]
  · simp [offendsLegacy, hfg, hf, hsrc, hcol, hxml']
  · have hfg2 : tstr (some fg) = true := by simp [tstr, hemp]
    rw [deriveSrc, if_pos (by simp [hfg, hf, hsrc, hcol, hxml', hfg2]), hf]

/-- Witness for C7 amended: background `b.png`, foreground `f.png`, no src. -/
theorem rasterForeground_derives_src_witness :
    offendsMissing { background := some "b.png", foreground := some "f.png" } = false ∧
    offendsLegacy { background := some "b.png", foreground := some "f.png" } = false ∧
    (deriveSrc { background := some "b.png", foreground := some "f.png" }).src = some "f.png" :=
  rasterForeground_derives_src { background := some "b.png", foreground := some "f.png" }
    "f.png" rfl (by decide) (by decide) (by decide) (by decide) (by decide)

/-- C3 evaluation: a single valid, density-less adaptive declaration (raster
background and foreground, derived src) passes validation and resolves to an
empty per-density set with only a default icon, yet the adaptive materializer
crashes with a `TypeError`: the default-icon fallback reads the classification
variable `background`, which was never assigned because the per-density loop
had zero iterations. -/
theorem adaptiveDefaultOnly_crashes :
    (updateIconsResolve [{ background := some "res/bg.png", foreground := some "res/fg.png" }]).isOk
      = true ∧
    (updateIconsResolve [{ background := some "res/bg.png", foreground := some "res/fg.png" }]).toOption
      = some (Prepared.mk []
          (some (Icon.mk (some "res/fg.png") none none none (some "res/bg.png")
            (some "res/fg.png") none false))
          []) ∧
    hasAdaptive [{ background := some "res/bg.png", foreground := some "res/fg.png" }] = true ∧
    errOf (updateIconsModel [{ background := some "res/bg.png", foreground := some "res/fg.png" }] [] "res")
      = some "TypeError: Cannot read properties of undefined" := by
  decide

lemma lookup_rset_self (m : List (String × α)) (k : String) (v : α) :
    List.lookup k (rset m k v) = some v := by
  induction m with
  | nil => simp [rset, List.lookup_cons]
  | cons p rest ih =>
    obtain ⟨k', v'⟩ := p
    by_cases h : k' = k
    · subst h
      simp [rset, List.lookup_cons]
    · have hb : (k' == k) = false := beq_eq_false_iff_ne.mpr h
      have hb' : (k == k') = false := beq_eq_false_iff_ne.mpr (Ne.symm h)
      simp [rset, hb, hb', List.lookup_cons, ih]

lemma lookup_rset_ne (m : List (String × α)) (k k' : String) (v : α) (h : k ≠ k') :
    List.lookup k (rset m k' v) = List.lookup k m := by
  induction m with
  | nil => simp [rset, List.lookup_cons, beq_eq_false_iff_ne.mpr h]
  | cons p rest ih =>
    obtain ⟨k'', v''⟩ := p
    by_cases h2 : k'' = k'
    · subst h2
      have hk : (k == k'') = false := beq_eq_false_iff_ne.mpr h
      simp [rset, List.lookup_cons, hk]
    · by_cases h3 : k = k''
      · subst h3
        simp [rset, beq_eq_false_iff_ne.mpr h2, List.lookup_cons]
      · simp [rset, beq_eq_false_iff_ne.mpr h2, List.lookup_cons,
          beq_eq_false_iff_ne.mpr h3, ih]

lemma lookup_rdel_self (m : List (String × α)) (k : String) :
    List.lookup k (rdel m k) = none := by
  induction m with
  | nil => rfl
  | cons p rest ih =>
    obtain ⟨k', v'⟩ := p
    by_cases h : k' = k
    · subst h
      simpa [rdel, List.filter] using ih
    · have hb : (k' == k) = false := beq_eq_false_iff_ne.mpr h
      have hb' : (k == k') = false := beq_eq_false_iff_ne.mpr (Ne.symm h)
      simp only [rdel, List.filter, hb, Bool.not_false]
      simpa [List.lookup_cons, hb', rdel] using ih

lemma lookup_rdel_none (m : List (String × α)) (k k' : String)
    (h : List.lookup k m = none) : List.lookup k (rdel m k') = none := by
  induction m with
  | nil => rfl
  | cons p rest ih =>
    obtain ⟨k'', v''⟩ := p
    by_cases h3 : k = k''
    · subst h3
      simp [List.lookup_cons] at h
    · have hb : (k == k'') = false := beq_eq_false_iff_ne.mpr h3
      rw [List.lookup_cons] at h
      rw [hb] at h
      by_cases h2 : k'' = k'
      · simpa [rdel, List.filter, h2] using ih h
      · simp only [rdel, List.filter, beq_eq_false_iff_ne.mpr h2, Bool.not_false]
        simpa [List.lookup_cons, hb, rdel] using ih h

lemma lookup_prepareIconsStep (d : String) (st : Prepared) (icon : Icon) :
    List.lookup d (prepareIconsStep st icon).android_icons
      = slotStep d (List.lookup d st.android_icons) icon := by
  unfold prepareIconsStep slotStep
  by_cases hdef : isDefaultCandidate icon
  · have hres : resolvedDensity icon = none := by simp [resolvedDensity, hdef]
    rw [hres]
    cases st.default_icon <;> simp [hdef]
  · simp only [hdef, if_false, Bool.false_eq_true]
    simp only [parseIcon]
    cases hj : jsOrStr icon.density (sizeToDensity (jsOrNat icon.width icon.height)) with
    | none =>
      have hres : resolvedDensity icon = none := by
        simp [resolvedDensity, hdef, hj, tstr]
      rw [hres]
      simp [tstr]
    | some x =>
      by_cases htr : tstr (some x)
      · have hres : resolvedDensity icon = some x := by
          simp [resolvedDensity, hdef, hj, htr]
        rw [hres]
        simp only [htr, Bool.not_true, Bool.false_eq_true, if_false, Option.getD_some]
        by_cases hxd : x = d
        · subst hxd
          simp only [beq_self_eq_true, if_true]
          cases hl : List.lookup x st.android_icons with
          | none => simp [hl, lookup_rset_self]
          | some prev =>
            by_cases hp : prev.platform
            · simp [hl, hp]
            · simp [hl, hp, lookup_rset_self]
        · have hbx : ((some x : Option String) == some d) = false :=
            beq_eq_false_iff_ne.mpr (by simpa using hxd)
          rw [hbx]
          simp only [Bool.false_eq_true, if_false]
          cases hl : List.lookup x st.android_icons with
          | none => simp [hl, lookup_rset_ne _ _ _ _ (Ne.symm hxd)]
          | some prev =>
            by_cases hp : prev.platform
            · simp [hl, hp]
            · simp [hl, hp, lookup_rset_ne _ _ _ _ (Ne.symm hxd)]
      · have hres : resolvedDensity icon = none := by
          simp [resolvedDensity, hdef, hj, htr]
        rw [hres]
        simp [htr]

lemma lookup_prepareIcons_fold (d : String) :
    ∀ (icons : List Icon) (st : Prepared),
      List.lookup d (icons.foldl prepareIconsStep st).android_icons
        = icons.foldl (slotStep d) (List.lookup d st.android_icons) := by
  intro icons
  induction icons with
  | nil => intro st; rfl
  | cons i rest ih =>
    intro st
    simp only [List.foldl_cons]
    rw [ih, lookup_prepareIconsStep]

lemma slot_fold_char (d : String) :
    ∀ (icons : List Icon) (s : Option Icon),
      icons.foldl (slotStep d) s =
        if s.elim false Icon.platform then s
        else
          match icons.find? (fun i => (resolvedDensity i == some d) && i.platform) with
          | some i => some i
          | none =>
            match (icons.filter (fun i => resolvedDensity i == some d)).getLast? with
            | some j => some j
            | none => s := by
  intro icons
  induction icons with
  | nil =>
    intro s
    simp only [List.foldl_nil, List.find?_nil, List.filter_nil, List.getLast?_nil]
    cases hp : s.elim false Icon.platform <;> simp
  | cons i rest ih =>
    intro s
    simp only [List.foldl_cons]
    by_cases hsp : s.elim false Icon.platform
    · have hstep : slotStep d s i = s := by
        unfold slotStep
        cases s with
        | none => simp at hsp
        | some p =>
          simp only [Option.elim] at hsp
          simp [hsp]
      rw [hstep, ih s, if_pos hsp, if_pos hsp]
    · by_cases hres : (resolvedDensity i == some d) = true
      · have hstep : slotStep d s i = some i := by
          unfold slotStep
          cases s with
          | none => simp [hres]
          | some p =>
            simp only [Option.elim] at hsp
            simp [hres, hsp]
        rw [hstep, ih (some i), if_neg hsp]
        by_cases hplat : i.platform
        · rw [if_pos (by simpa using hplat)]
          rw [List.find?_cons_of_pos _ (by simp [hres, hplat])]
        · rw [if_neg (by simpa using hplat)]
          rw [List.find?_cons_of_neg _ (by simp [hres, hplat])]
          cases hfind : rest.find? (fun i => (resolvedDensity i == some d) && i.platform) with
          | some j => simp
          | none =>
            simp only []
            rw [List.filter_cons]
            simp only [hres, if_true]
            cases hlast : (rest.filter (fun i => resolvedDensity i == some d)).getLast? with
            | some j =>
              have : (i :: rest.filter (fun i => resolvedDensity i == some d)).getLast?
                  = some j := by
                cases hfl : rest.filter (fun i => resolvedDensity i == some d) with
                | nil => rw [hfl] at hlast; simp at hlast
                | cons a as =>
                  rw [hfl] at hlast
                  rw [List.getLast?_cons_cons, hlast]
              rw [this]
            | none =>
              have hnil : rest.filter (fun i => resolvedDensity i == some d) = [] := by
                cases hfl : rest.filter (fun i => resolvedDensity i == some d) with
                | nil => rfl
                | cons a as =>
                  rw [hfl] at hlast
                  rw [List.getLast?_eq_none_iff] at hlast
                  cases hlast
              rw [hnil]
              simp
      · have hstep : slotStep d s i = s := by
          unfold slotStep
          simp [hres]
        rw [hstep, ih s, if_neg hsp]
        rw [List.find?_cons_of_neg _ (by simp [hres]), List.filter_cons]
        simp only [hres, Bool.false_eq_true, if_false]
        rw [if_neg hsp]

/-- C1 amended: a density slot filled by a platform-specific declaration is
never overwritten by any later declaration; a slot whose current occupant is
not platform-specific is overwritten by each later declaration resolving to the
same density. Hence the resolved set maps a density to the first
platform-specific declaration resolving to it, or, when there is none, to the
last declaration resolving to it. -/
theorem densitySlot_resolution (icons : List Icon) (d : String) :
    List.lookup d (prepareIcons icons).android_icons =
      (match icons.find? (fun i => (resolvedDensity i == some d) && i.platform) with
       | some i => some i
       | none => (icons.filter (fun i => resolvedDensity i == some d)).getLast?) := by
  have hA := lookup_prepareIcons_fold d icons ⟨[], none, []⟩
  have hnil : List.lookup d ({ android_icons := [], default_icon := none, log := [] } : Prepared).android_icons = (none : Option Icon) := rfl
  rw [hnil] at hA
  unfold prepareIcons
  rw [hA]
  rw [slot_fold_char d icons none]
  simp only [List.lookup_nil, Option.elim, Bool.false_eq_true, if_false]
  cases hfind : icons.find? (fun i => (resolvedDensity i == some d) && i.platform) with
  | some j => simp
  | none =>
    simp only []
    cases hlast : (icons.filter (fun i => resolvedDensity i == some d)).getLast? with
    | some j => simp
    | none => simp

/-- C1 counterexample: two non-platform declarations for the same density; the
claim says the first one wins, but the resolved slot holds the second. -/
theorem densitySlot_counterexample :
    List.lookup "mdpi" (prepareIcons
      [{ density := some "mdpi", src := some "a.png" },
       { density := some "mdpi", src := some "b.png" }]).android_icons
      = some { density := some "mdpi", src := some "b.png" } ∧
    ({ density := some "mdpi", src := some "b.png" } : Icon)
      ≠ { density := some "mdpi", src := some "a.png" } := by
  decide

lemma prep_fold_default_log (icons : List Icon) : ∀ st : Prepared,
    (icons.foldl prepareIconsStep st).default_icon
      = (match st.default_icon with
         | some p => some p
         | none => (icons.filter isDefaultCandidate).head?) ∧
    (icons.foldl prepareIconsStep st).log
      = st.log ++ (match st.default_icon with
         | some p => (icons.filter isDefaultCandidate).map (fun c => extraDefaultMsg c p)
         | none =>
           match icons.filter isDefaultCandidate with
           | [] => []
           | c0 :: cs => cs.map (fun c => extraDefaultMsg c c0)) := by
  induction icons with
  | nil =>
    intro st
    cases hsd : st.default_icon <;> simp [hsd]
  | cons i rest ih =>
    intro st
    simp only [List.foldl_cons]
    by_cases hdef : isDefaultCandidate i
    · rw [List.filter_cons]
      simp only [hdef, if_true]
      cases hsd : st.default_icon with
      | some p =>
        have hstep : prepareIconsStep st i
            = { st with log := st.log ++ [extraDefaultMsg i p] } := by
          unfold prepareIconsStep
          rw [hsd]
          simp [hdef]
        rw [hstep]
        obtain ⟨ih1, ih2⟩ := ih { st with log := st.log ++ [extraDefaultMsg i p] }
        refine ⟨by rw [ih1]; simp [hsd], ?_⟩
        rw [ih2]
        simp [hsd, List.append_assoc]
      | none =>
        have hstep : prepareIconsStep st i = { st with default_icon := some i } := by
          unfold prepareIconsStep
          rw [hsd]
          simp [hdef]
        rw [hstep]
        obtain ⟨ih1, ih2⟩ := ih { st with default_icon := some i }
        refine ⟨by rw [ih1]; simp [hsd], ?_⟩
        rw [ih2]
    · have hstep : prepareIconsStep st i = { st with android_icons := parseIcon st.android_icons i (jsOrNat i.width i.height) } := by
        unfold prepareIconsStep
        simp [hdef]
      rw [hstep, List.filter_cons]
      simp only [hdef, Bool.false_eq_true, if_false]
      obtain ⟨ih1, ih2⟩ := ih { st with android_icons := parseIcon st.android_icons i (jsOrNat i.width i.height) }
      exact ⟨ih1, ih2⟩

/-- C5: resolution keeps the first density-less, size-less declaration as the
single default icon; every later such declaration is discarded and logged as an
ignored duplicate, with the discarded declaration's content (and the retained
default's) shown in the diagnostic; the resulting default icon is never changed
by later density-less declarations. -/
theorem defaultIcon_firstWins (icons : List Icon) :
    (prepareIcons icons).default_icon = (icons.filter isDefaultCandidate).head? ∧
    (prepareIcons icons).log =
      (match icons.filter isDefaultCandidate with
       | [] => []
       | c0 :: cs => cs.map (fun c => extraDefaultMsg c c0)) := by
  obtain ⟨h1, h2⟩ := prep_fold_default_log icons ⟨[], none, []⟩
  unfold prepareIcons
  rw [h1, h2]
  exact ⟨rfl, by simp⟩

lemma densities_clean : ∀ d ∈ DENSITIES, cleanDensity d = true := by decide

lemma takeWhile_app_stop (P : Char → Bool) (xs : List Char) (y : Char) (ys : List Char)
    (h1 : ∀ x ∈ xs, P x = true) (h2 : P y = false) :
    (xs ++ y :: ys).takeWhile P = xs := by
  induction xs with
  | nil => simp [List.takeWhile_cons, h2]
  | cons a as ih =>
    simp only [List.cons_append, List.takeWhile_cons, h1 a (by simp), if_true]
    rw [ih (fun x hx => h1 x (by simp [hx]))]

lemma dropWhile_app_stop (P : Char → Bool) (xs : List Char) (y : Char) (ys : List Char)
    (h1 : ∀ x ∈ xs, P x = true) (h2 : P y = false) :
    (xs ++ y :: ys).dropWhile P = y :: ys := by
  induction xs with
  | nil => simp [List.dropWhile_cons, h2]
  | cons a as ih =>
    simp only [List.cons_append, List.dropWhile_cons, h1 a (by simp), if_true]
    exact ih (fun x hx => h1 x (by simp [hx]))

lemma mipmap_dash_eq (d : String) : ("mipmap" ++ "-" ++ d : String) = "mipmap-" ++ d := by
  apply strEq_of_data
  rw [strData_append, strData_append, strData_append]
  rfl

lemma adPath_inj (resDir d₁ d₂ n₁ n₂ : String)
    (h₁ : cleanDensity d₁ = true) (h₂ : cleanDensity d₂ = true)
    (h : pathJoin3 resDir ("mipmap-" ++ d₁ ++ "-v26") n₁
       = pathJoin3 resDir ("mipmap-" ++ d₂ ++ "-v26") n₂) :
    d₁ = d₂ ∧ n₁ = n₂ := by
  have hd := congrArg String.data h
  simp only [pathJoin3, strData_append, List.append_assoc] at hd
  have hd1 := List.append_cancel_left hd
  have hd2 := List.append_cancel_left hd1
  have hd3 := List.append_cancel_left hd2
  simp only [List.cons_append, List.nil_append] at hd3
  have hP1 : ∀ x ∈ d₁.data, notSep x = true := List.all_eq_true.mp h₁
  have hP2 : ∀ x ∈ d₂.data, notSep x = true := List.all_eq_true.mp h₂
  have ht := congrArg (List.takeWhile notSep) hd3
  rw [takeWhile_app_stop notSep _ _ _ hP1 (by decide),
    takeWhile_app_stop notSep _ _ _ hP2 (by decide)] at ht
  have hdd : d₁ = d₂ := strEq_of_data ht
  refine ⟨hdd, ?_⟩
  subst hdd
  have hrest := List.append_cancel_left hd3
  simp only [List.cons.injEq, true_and] at hrest
  exact strEq_of_data hrest

lemma legPath_ne_adPath (resDir d₁ d₂ n₁ n₂ : String)
    (h₁ : cleanDensity d₁ = true) (h₂ : cleanDensity d₂ = true) :
    pathJoin3 resDir ("mipmap-" ++ d₁) n₁ ≠ pathJoin3 resDir ("mipmap-" ++ d₂ ++ "-v26") n₂ := by
  intro h
  have hd := congrArg String.data h
  simp only [pathJoin3, strData_append, List.append_assoc] at hd
  have hd1 := List.append_cancel_left hd
  have hd2 := List.append_cancel_left hd1
  have hd3 := List.append_cancel_left hd2
  simp only [List.cons_append, List.nil_append] at hd3
  have hP1 : ∀ x ∈ d₁.data, notSep x = true := List.all_eq_true.mp h₁
  have hP2 : ∀ x ∈ d₂.data, notSep x = true := List.all_eq_true.mp h₂
  have ht := congrArg (List.dropWhile notSep) hd3
  rw [dropWhile_app_stop notSep _ _ _ hP1 (by decide),
    dropWhile_app_stop notSep _ _ _ hP2 (by decide)] at ht
  simp at ht

lemma mipmapPlain_ne_adPath (resDir d n₁ n₂ : String) :
    pathJoin3 resDir "mipmap" n₁ ≠ pathJoin3 resDir ("mipmap-" ++ d ++ "-v26") n₂ := by
  intro h
  have hd := congrArg String.data h
  simp only [pathJoin3, strData_append, List.append_assoc] at hd
  have hd1 := List.append_cancel_left hd
  have hd2 := List.append_cancel_left hd1
  simp only [List.cons_append, List.nil_append, List.cons.injEq, true_and] at hd2
  exact absurd hd2.1 (by decide)

lemma rename9_ne (name target : String) (h1 : name ≠ target)
    (h2 : (if jsEndsWith name ".png" then
      String.mk (name.data.take (name.data.length - 4)) ++ ".9.png" else name) ≠ target) :
    ∀ s, rename9 name s ≠ target := by
  intro s
  unfold rename9
  split
  · exact h2
  · exact h1

lemma adKey_ne_launcher (resDir density d name src : String)
    (hd : cleanDensity d = true) (hdens : cleanDensity density = true)
    (hname : ∀ s, rename9 name s ≠ "ic_launcher.xml") :
    getAdaptiveImageResourcePath resDir "mipmap" density name src
      ≠ pathJoin3 resDir ("mipmap-" ++ d ++ "-v26") "ic_launcher.xml" := by
  unfold getAdaptiveImageResourcePath
  by_cases he : density.isEmpty
  · rw [if_pos he]
    exact mipmapPlain_ne_adPath resDir d (rename9 name src) "ic_launcher.xml"
  · rw [if_neg he, mipmap_dash_eq]
    intro h
    obtain ⟨hdd, hn⟩ := adPath_inj resDir density d (rename9 name src) "ic_launcher.xml"
      hdens hd h
    exact hname src hn

lemma legKey_ne_launcher (resDir density d name src : String)
    (hd : cleanDensity d = true) (hdens : cleanDensity density = true) :
    getImageResourcePath resDir "mipmap" density name src
      ≠ pathJoin3 resDir ("mipmap-" ++ d ++ "-v26") "ic_launcher.xml" := by
  unfold getImageResourcePath
  by_cases he : density.isEmpty
  · rw [if_pos he]
    exact mipmapPlain_ne_adPath resDir d _ "ic_launcher.xml"
  · rw [if_neg he, mipmap_dash_eq]
    exact legPath_ne_adPath resDir density d _ "ic_launcher.xml" hdens hd

lemma loopSlotAdd_pres (resDir density asset baseName defVal : String) (m : RMap) (L : String)
    (hK1 : getAdaptiveImageResourcePath resDir "mipmap" density (baseName ++ ".xml")
      (basename asset) ≠ L)
    (hK2 : getAdaptiveImageResourcePath resDir "mipmap" density (baseName ++ ".png")
      (basename asset) ≠ L) :
    List.lookup L (loopSlotAdd resDir density asset baseName defVal m).2 = List.lookup L m := by
  unfold loopSlotAdd
  by_cases h1 : jsStartsWith asset "@color"
  · simp [h1]
  · by_cases h2 : extname (basename asset) == ".xml"
    · simp only [h1, Bool.false_eq_true, if_false, h2, if_true]
      exact lookup_rset_ne m L _ (some asset) (Ne.symm hK1)
    · by_cases h3 : extname (basename asset) == ".png"
      · simp only [h1, Bool.false_eq_true, if_false, h2, h3, if_true]
        exact lookup_rset_ne m L _ (some asset) (Ne.symm hK2)
      · simp [h1, h2, h3]

lemma loopMonoAdd_pres (resDir density asset : String) (m : RMap) (L : String)
    (hK1 : getAdaptiveImageResourcePath resDir "mipmap" density "ic_launcher_monochrome.xml"
      (basename asset) ≠ L)
    (hK2 : getAdaptiveImageResourcePath resDir "mipmap" density "ic_launcher_monochrome.png"
      (basename asset) ≠ L) :
    List.lookup L (loopMonoAdd resDir density asset m) = List.lookup L m := by
  unfold loopMonoAdd
  by_cases h2 : extname (basename asset) == ".xml"
  · simp only [h2, if_true]
    exact lookup_rset_ne m L _ (some asset) (Ne.symm hK1)
  · by_cases h3 : extname (basename asset) == ".png"
    · simp only [h2, Bool.false_eq_true, if_false, h3, if_true]
      exact lookup_rset_ne m L _ (some asset) (Ne.symm hK2)
    · simp [h2, h3]

lemma adaptiveIter_fields (resDir : String) (st : AdState) (e : String × Icon) :
    (adaptiveIter resDir st e).background = e.2.background ∧
    (adaptiveIter resDir st e).foreground = e.2.foreground ∧
    (adaptiveIter resDir st e).monochrome
      = (if tstr e.2.monochrome && !(tstr e.2.background && tstr e.2.foreground) then none
        else e.2.monochrome) := by
  by_cases hc : (tstr e.2.background && tstr e.2.foreground) = true
  · simp [adaptiveIter, hc]
  · simp [adaptiveIter, Bool.not_eq_true _ ▸ hc]

lemma adaptiveIter_establish (resDir : String) (st : AdState) (e : String × Icon)
    (hc : (tstr e.2.background && tstr e.2.foreground) = true) :
    List.lookup (pathJoin3 resDir ("mipmap-" ++ e.1 ++ "-v26") "ic_launcher.xml")
      (adaptiveIter resDir st e).rmap = none := by
  simp only [adaptiveIter]
  rw [hc]
  simp only [Bool.not_true, Bool.false_eq_true, if_false]
  exact lookup_rdel_self _ _

lemma adaptiveIter_writes_mem (resDir : String) (st : AdState) (e : String × Icon)
    (pc : String × String) (h : pc ∈ (adaptiveIter resDir st e).writes) :
    pc ∈ st.writes ∨
      (pc.1 = pathJoin3 resDir ("mipmap-" ++ e.1 ++ "-v26") "ic_launcher.xml" ∧
        (tstr e.2.background && tstr e.2.foreground) = true) := by
  by_cases hc : (tstr e.2.background && tstr e.2.foreground) = true
  · simp only [adaptiveIter] at h
    rw [hc] at h
    simp only [Bool.not_true, Bool.false_eq_true, if_false] at h
    rw [List.mem_append] at h
    rcases h with h | h
    · exact Or.inl h
    · rw [List.mem_singleton] at h
      subst h
      exact Or.inr ⟨rfl, hc⟩
  · have hc' : (tstr e.2.background && tstr e.2.foreground) = false := by
      revert hc
      cases (tstr e.2.background && tstr e.2.foreground) <;> simp
    simp only [adaptiveIter] at h
    rw [hc'] at h
    simp only [Bool.not_false, if_true] at h
    exact Or.inl h

lemma adaptiveIter_pres (resDir d : String) (st : AdState) (e : String × Icon)
    (hd : cleanDensity d = true) (he : cleanDensity e.1 = true)
    (h : List.lookup (pathJoin3 resDir ("mipmap-" ++ d ++ "-v26") "ic_launcher.xml") st.rmap
      = none) :
    List.lookup (pathJoin3 resDir ("mipmap-" ++ d ++ "-v26") "ic_launcher.xml")
      (adaptiveIter resDir st e).rmap = none := by
  by_cases hc : (tstr e.2.background && tstr e.2.foreground) = true
  · simp only [adaptiveIter]
    rw [hc]
    simp only [Bool.not_true, Bool.false_eq_true, if_false]
    apply lookup_rdel_none
    have hbg : List.lookup (pathJoin3 resDir ("mipmap-" ++ d ++ "-v26") "ic_launcher.xml")
        (loopSlotAdd resDir e.1 (e.2.background.getD "") "ic_launcher_background"
          "@mipmap/ic_launcher_background" st.rmap).2 = none := by
      rw [loopSlotAdd_pres _ _ _ _ _ _ _
        (adKey_ne_launcher _ _ _ _ _ hd he (rename9_ne _ _ (by decide) (by decide)))
        (adKey_ne_launcher _ _ _ _ _ hd he (rename9_ne _ _ (by decide) (by decide)))]
      exact h
    have hfg : List.lookup (pathJoin3 resDir ("mipmap-" ++ d ++ "-v26") "ic_launcher.xml")
        (loopSlotAdd resDir e.1 (e.2.foreground.getD "") "ic_launcher_foreground"
          "@mipmap/ic_launcher_foreground"
          (loopSlotAdd resDir e.1 (e.2.background.getD "") "ic_launcher_background"
            "@mipmap/ic_launcher_background" st.rmap).2).2 = none := by
      rw [loopSlotAdd_pres _ _ _ _ _ _ _
        (adKey_ne_launcher _ _ _ _ _ hd he (rename9_ne _ _ (by decide) (by decide)))
        (adKey_ne_launcher _ _ _ _ _ hd he (rename9_ne _ _ (by decide) (by decide)))]
      exact hbg
    split
    · rw [if_neg (by decide)]
      exact hfg
    · split
      · rw [loopMonoAdd_pres _ _ _ _ _
          (adKey_ne_launcher _ _ _ _ _ hd he (rename9_ne _ _ (by decide) (by decide)))
          (adKey_ne_launcher _ _ _ _ _ hd he (rename9_ne _ _ (by decide) (by decide)))]
        exact hfg
      · exact hfg
  · have hc' : (tstr e.2.background && tstr e.2.foreground) = false := by
      revert hc
      cases (tstr e.2.background && tstr e.2.foreground) <;> simp
    simp only [adaptiveIter]
    rw [hc']
    simp only [Bool.not_false, if_true]
    exact h

lemma adaptiveFold_pres (resDir d : String) (hd : cleanDensity d = true) :
    ∀ (entries : List (String × Icon)) (st : AdState),
      (∀ e ∈ entries, cleanDensity e.1 = true) →
      List.lookup (pathJoin3 resDir ("mipmap-" ++ d ++ "-v26") "ic_launcher.xml") st.rmap = none →
      List.lookup (pathJoin3 resDir ("mipmap-" ++ d ++ "-v26") "ic_launcher.xml")
        (entries.foldl (adaptiveIter resDir) st).rmap = none := by
  intro entries
  induction entries with
  | nil => intro st _ h; exact h
  | cons e rest ih =>
    intro st hcl h
    simp only [List.foldl_cons]
    exact ih (adaptiveIter resDir st e) (fun x hx => hcl x (by simp [hx]))
      (adaptiveIter_pres resDir d st e hd (hcl e (by simp)) h)

lemma adaptiveFold_last (resDir : String) :
    ∀ (entries : List (String × Icon)) (st0 : AdState) (dl : String) (il : Icon),
      entries.getLast? = some (dl, il) →
      ((entries.foldl (adaptiveIter resDir) st0).background = il.background ∧
       (entries.foldl (adaptiveIter resDir) st0).foreground = il.foreground ∧
       (entries.foldl (adaptiveIter resDir) st0).monochrome
         = (if tstr il.monochrome && !(tstr il.background && tstr il.foreground) then none
            else il.monochrome)) := by
  intro entries
  induction entries with
  | nil => intro st0 dl il h; simp at h
  | cons e rest ih =>
    intro st0 dl il h
    cases rest with
    | nil =>
      simp only [List.getLast?_singleton, Option.some.injEq] at h
      subst h
      simpa using adaptiveIter_fields resDir st0 (dl, il)
    | cons e2 rest2 =>
      rw [List.getLast?_cons_cons] at h
      simp only [List.foldl_cons]
      simpa using ih (adaptiveIter resDir st0 e) dl il h

lemma defaultSlotAdd_pres (resDir leftover baseName : String) (dv : Option String)
    (m m' : RMap) (L : String)
    (hok : defaultSlotAdd resDir leftover baseName dv m = .ok m')
    (hK1 : ∀ s : String, getAdaptiveImageResourcePath resDir "mipmap" "mdpi" (baseName ++ ".xml")
      (basename s) ≠ L)
    (hK2 : ∀ s : String, getAdaptiveImageResourcePath resDir "mipmap" "mdpi" (baseName ++ ".png")
      (basename s) ≠ L) :
    List.lookup L m' = List.lookup L m := by
  unfold defaultSlotAdd at hok
  by_cases h1 : jsStartsWith leftover "@color"
  · rw [if_pos h1] at hok
    cases hok
    rfl
  · rw [if_neg h1] at hok
    by_cases h2 : extname (basename leftover) == ".xml"
    · rw [if_pos h2] at hok
      cases dv with
      | none => cases hok
      | some s =>
        simp only [Except.ok.injEq] at hok
        subst hok
        exact lookup_rset_ne m L _ (some s) (Ne.symm (hK1 s))
    · rw [if_neg h2] at hok
      by_cases h3 : extname (basename leftover) == ".png"
      · rw [if_pos h3] at hok
        cases dv with
        | none => cases hok
        | some s =>
          simp only [Except.ok.injEq] at hok
          subst hok
          exact lookup_rset_ne m L _ (some s) (Ne.symm (hK2 s))
      · rw [if_neg h3] at hok
        cases hok
        rfl

lemma defaultMonoAdd_pres (resDir leftover : String) (dv : Option String)
    (m m' : RMap) (L : String)
    (hok : defaultMonoAdd resDir leftover dv m = .ok m')
    (hK1 : ∀ s : String, getAdaptiveImageResourcePath resDir "mipmap" "mdpi"
      "ic_launcher_monochrome.xml" (basename s) ≠ L)
    (hK2 : ∀ s : String, getAdaptiveImageResourcePath resDir "mipmap" "mdpi"
      "ic_launcher_monochrome.png" (basename s) ≠ L) :
    List.lookup L m' = List.lookup L m := by
  unfold defaultMonoAdd at hok
  by_cases h2 : extname (basename leftover) == ".xml"
  · rw [if_pos h2] at hok
    cases dv with
    | none => cases hok
    | some s =>
      simp only [Except.ok.injEq] at hok
      subst hok
      exact lookup_rset_ne m L _ (some s) (Ne.symm (hK1 s))
  · rw [if_neg h2] at hok
    by_cases h3 : extname (basename leftover) == ".png"
    · rw [if_pos h3] at hok
      cases dv with
      | none => cases hok
      | some s =>
        simp only [Except.ok.injEq] at hok
        subst hok
        exact lookup_rset_ne m L _ (some s) (Ne.symm (hK2 s))
    · rw [if_neg h3] at hok
      cases hok
      rfl

lemma adaptiveDefaultBlock_pres (resDir d : String) (di : Icon) (st : AdState) (m : RMap)
    (hd : cleanDensity d = true)
    (hok : adaptiveDefaultBlock resDir di st = .ok m)
    (h : List.lookup (pathJoin3 resDir ("mipmap-" ++ d ++ "-v26") "ic_launcher.xml") st.rmap
      = none) :
    List.lookup (pathJoin3 resDir ("mipmap-" ++ d ++ "-v26") "ic_launcher.xml") m = none := by
  have hmdpi : cleanDensity "mdpi" = true := by decide
  unfold adaptiveDefaultBlock at hok
  split at hok
  · simp at hok
  next bg hbg =>
    split at hok
    · simp at hok
    next m1 h1 =>
      have hm1 : List.lookup (pathJoin3 resDir ("mipmap-" ++ d ++ "-v26") "ic_launcher.xml") m1
          = none := by
        rw [defaultSlotAdd_pres _ _ _ _ _ _ _ h1
          (fun s => adKey_ne_launcher _ _ _ _ _ hd hmdpi (rename9_ne _ _ (by decide) (by decide)))
          (fun s => adKey_ne_launcher _ _ _ _ _ hd hmdpi
            (rename9_ne _ _ (by decide) (by decide)))]
        exact h
      split at hok
      · simp at hok
      next fg hfg =>
        split at hok
        · simp at hok
        next m2 h2 =>
          have hm2 : List.lookup (pathJoin3 resDir ("mipmap-" ++ d ++ "-v26") "ic_launcher.xml")
              m2 = none := by
            rw [defaultSlotAdd_pres _ _ _ _ _ _ _ h2
              (fun s => adKey_ne_launcher _ _ _ _ _ hd hmdpi
                (rename9_ne _ _ (by decide) (by decide)))
              (fun s => adKey_ne_launcher _ _ _ _ _ hd hmdpi
                (rename9_ne _ _ (by decide) (by decide)))]
            exact hm1
          split at hok
          · rw [defaultMonoAdd_pres _ _ _ _ _ _ hok
              (fun s => adKey_ne_launcher _ _ _ _ _ hd hmdpi
                (rename9_ne _ _ (by decide) (by decide)))
              (fun s => adKey_ne_launcher _ _ _ _ _ hd hmdpi
                (rename9_ne _ _ (by decide) (by decide)))]
            exact hm2
          · cases hok
            exact hm2

lemma adaptiveFold_writes_inv (resDir : String) :
    ∀ (entries : List (String × Icon)) (st : AdState),
      (∀ e ∈ entries, cleanDensity e.1 = true) →
      (∀ pc ∈ st.writes, ∃ d, cleanDensity d = true ∧
        pc.1 = pathJoin3 resDir ("mipmap-" ++ d ++ "-v26") "ic_launcher.xml" ∧
        List.lookup pc.1 st.rmap = none) →
      ∀ pc ∈ (entries.foldl (adaptiveIter resDir) st).writes, ∃ d, cleanDensity d = true ∧
        pc.1 = pathJoin3 resDir ("mipmap-" ++ d ++ "-v26") "ic_launcher.xml" ∧
        List.lookup pc.1 (entries.foldl (adaptiveIter resDir) st).rmap = none := by
  intro entries
  induction entries with
  | nil => intro st _ h0; exact h0
  | cons e rest ih =>
    intro st hcl h0
    simp only [List.foldl_cons]
    apply ih (adaptiveIter resDir st e) (fun x hx => hcl x (by simp [hx]))
    intro pc hpc
    rcases adaptiveIter_writes_mem resDir st e pc hpc with hold | ⟨hnew, hA⟩
    · obtain ⟨d, hdc, hdL, hlk⟩ := h0 pc hold
      refine ⟨d, hdc, hdL, ?_⟩
      rw [hdL]
      rw [hdL] at hlk
      exact adaptiveIter_pres resDir d st e hdc (hcl e (by simp)) hlk
    · refine ⟨e.1, hcl e (by simp), hnew, ?_⟩
      rw [hnew]
      exact adaptiveIter_establish resDir st e hA

lemma updateAdaptive_writes (resDir : String) (entries : List (String × Icon))
    (default_icon : Option Icon) (m0 m1 : RMap) (ws : List (String × String))
    (hcl : ∀ e ∈ entries, cleanDensity e.1 = true)
    (hok : updateIconResourceForAdaptive entries default_icon m0 resDir = .ok (m1, ws)) :
    ∀ pc ∈ ws, ∃ d, cleanDensity d = true ∧
      pc.1 = pathJoin3 resDir ("mipmap-" ++ d ++ "-v26") "ic_launcher.xml" ∧
      List.lookup pc.1 m1 = none := by
  have hinv := adaptiveFold_writes_inv resDir entries { rmap := m0 } hcl
    (by intro pc hpc; simp at hpc)
  cases default_icon with
  | none =>
    simp only [updateIconResourceForAdaptive] at hok
    simp only [Except.ok.injEq, Prod.mk.injEq] at hok
    obtain ⟨hm, hw⟩ := hok
    subst hm
    subst hw
    exact hinv
  | some di =>
    simp only [updateIconResourceForAdaptive] at hok
    by_cases hm : (List.lookup "mdpi" entries).isSome
    · rw [if_pos hm] at hok
      simp only [Except.ok.injEq, Prod.mk.injEq] at hok
      obtain ⟨hm1, hw⟩ := hok
      subst hm1
      subst hw
      exact hinv
    · rw [if_neg hm] at hok
      split at hok
      · simp at hok
      next mres hres =>
        simp only [Except.ok.injEq, Prod.mk.injEq] at hok
        obtain ⟨hm1, hw⟩ := hok
        subst hm1
        subst hw
        intro pc hpc
        obtain ⟨d, hdc, hdL, hlk⟩ := hinv pc hpc
        refine ⟨d, hdc, hdL, ?_⟩
        rw [hdL]
        rw [hdL] at hlk
        exact adaptiveDefaultBlock_pres resDir d di _ mres hdc hres hlk

lemma legacyFold_error (resDir er : String) :
    ∀ entries : List (String × Icon),
      entries.foldl (legacyIter resDir) (.error er) = .error er := by
  intro entries
  induction entries with
  | nil => rfl
  | cons e rest ih =>
    simp only [List.foldl_cons]
    have : legacyIter resDir (.error er) e = .error er := rfl
    rw [this, ih]

lemma legacyFold_pres (resDir d : String) (hd : cleanDensity d = true) :
    ∀ (entries : List (String × Icon)) (m m' : RMap),
      (∀ e ∈ entries, cleanDensity e.1 = true) →
      entries.foldl (legacyIter resDir) (.ok m) = .ok m' →
      List.lookup (pathJoin3 resDir ("mipmap-" ++ d ++ "-v26") "ic_launcher.xml") m = none →
      List.lookup (pathJoin3 resDir ("mipmap-" ++ d ++ "-v26") "ic_launcher.xml") m' = none := by
  intro entries
  induction entries with
  | nil =>
    intro m m' _ hok h
    simp only [List.foldl_nil, Except.ok.injEq] at hok
    subst hok
    exact h
  | cons e rest ih =>
    intro m m' hcl hok h
    simp only [List.foldl_cons] at hok
    cases hs : e.2.src with
    | none =>
      have hstep : legacyIter resDir (.ok m) e
          = .error "TypeError: Cannot read properties of undefined" := by
        simp [legacyIter, hs]
      rw [hstep, legacyFold_error] at hok
      simp at hok
    | some src =>
      have hstep : legacyIter resDir (.ok m) e
          = .ok (rset m (getImageResourcePath resDir "mipmap" e.1 "ic_launcher" (basename src))
              (some src)) := by
        simp [legacyIter, hs]
      rw [hstep] at hok
      apply ih _ m' (fun x hx => hcl x (by simp [hx])) hok
      rw [lookup_rset_ne _ _ _ _
        (Ne.symm (legKey_ne_launcher resDir e.1 d "ic_launcher" (basename src) hd
          (hcl e (by simp))))]
      exact h

lemma updateLegacy_pres (resDir d : String) (entries : List (String × Icon))
    (default_icon : Option Icon) (m m2 : RMap)
    (hd : cleanDensity d = true)
    (hcl : ∀ e ∈ entries, cleanDensity e.1 = true)
    (hok : updateIconResourceForLegacy entries default_icon m resDir = .ok m2)
    (h : List.lookup (pathJoin3 resDir ("mipmap-" ++ d ++ "-v26") "ic_launcher.xml") m = none) :
    List.lookup (pathJoin3 resDir ("mipmap-" ++ d ++ "-v26") "ic_launcher.xml") m2 = none := by
  have hmdpi : cleanDensity "mdpi" = true := by decide
  unfold updateIconResourceForLegacy at hok
  split at hok
  · simp at hok
  next mfold hfold =>
    have hmf : List.lookup (pathJoin3 resDir ("mipmap-" ++ d ++ "-v26") "ic_launcher.xml")
        mfold = none := legacyFold_pres resDir d hd entries m mfold hcl hfold h
    cases default_icon with
    | none =>
      simp only [Except.ok.injEq] at hok
      subst hok
      exact hmf
    | some di =>
      dsimp only at hok
      by_cases hm : (List.lookup "mdpi" entries).isSome
      · rw [if_pos hm] at hok
        simp only [Except.ok.injEq] at hok
        subst hok
        exact hmf
      · rw [if_neg hm] at hok
        cases hs : di.src with
        | none => rw [hs] at hok; simp at hok
        | some src =>
          rw [hs] at hok
          simp only [Except.ok.injEq] at hok
          subst hok
          rw [lookup_rset_ne _ _ _ _
            (Ne.symm (legKey_ne_launcher resDir "mdpi" d "ic_launcher" (basename src) hd hmdpi))]
          exact hmf

lemma rset_keys (m : List (String × α)) (k : String) (v : α) :
    ∀ k', k' ∈ (rset m k v).map Prod.fst → k' ∈ m.map Prod.fst ∨ k' = k := by
  induction m with
  | nil =>
    intro k' h
    simp [rset] at h
    exact Or.inr h
  | cons p rest ih =>
    obtain ⟨a, b⟩ := p
    intro k' h
    by_cases hp : a == k
    · simp only [rset, hp, if_true] at h
      simp only [List.map_cons, List.mem_cons] at h ⊢
      tauto
    · simp only [rset, hp, Bool.false_eq_true, if_false] at h
      simp only [List.map_cons, List.mem_cons] at h ⊢
      rcases h with h | h
      · exact Or.inl (Or.inl h)
      · rcases ih k' h with h2 | h2
        · exact Or.inl (Or.inr h2)
        · exact Or.inr h2

lemma lookup_mem_values (l : List (Nat × String)) (n : Nat) (d : String)
    (h : List.lookup n l = some d) : d ∈ l.map Prod.snd := by
  induction l with
  | nil => simp [List.lookup] at h
  | cons p rest ih =>
    obtain ⟨a, b⟩ := p
    rw [List.lookup_cons] at h
    by_cases hn : n == a
    · rw [hn] at h
      simp only [Option.some.injEq] at h
      subst h
      simp
    · have hn' : (n == a) = false := by simpa using hn
      rw [hn'] at h
      simp only [List.map_cons, List.mem_cons]
      exact Or.inr (ih h)

lemma sizeToDensity_mem (sz : Option Nat) (d : String) (h : sizeToDensity sz = some d) :
    d ∈ DENSITIES := by
  cases sz with
  | none => simp [sizeToDensity] at h
  | some n =>
    simp only [sizeToDensity] at h
    have := lookup_mem_values SIZE_TO_DENSITY_MAP n d h
    simpa [SIZE_TO_DENSITY_MAP, DENSITIES] using this

lemma parseIcon_keys (ai : List (String × Icon)) (icon : Icon) (sz : Option Nat)
    (hdens : tstr icon.density = true → icon.density.getD "" ∈ DENSITIES) :
    ∀ k ∈ (parseIcon ai icon sz).map Prod.fst, k ∈ ai.map Prod.fst ∨ k ∈ DENSITIES := by
  intro k hk
  cases hden : jsOrStr icon.density (sizeToDensity sz) with
  | none =>
    simp only [parseIcon, hden] at hk
    rw [if_pos (by simp [tstr])] at hk
    exact Or.inl hk
  | some x =>
    by_cases htr : tstr (some x) = true
    · have hxmem : x ∈ DENSITIES := by
        unfold jsOrStr at hden
        by_cases hid : tstr icon.density = true
        · rw [if_pos hid] at hden
          have := hdens hid
          rw [hden] at this
          simpa using this
        · rw [if_neg hid] at hden
          exact sizeToDensity_mem sz x hden
      simp only [parseIcon, hden] at hk
      rw [if_neg (by simp [htr])] at hk
      simp only [Option.getD_some] at hk
      split at hk
      next prev hprev =>
        by_cases hp : prev.platform
        · rw [if_pos hp] at hk
          exact Or.inl hk
        · rw [if_neg hp] at hk
          rcases rset_keys ai x icon k hk with h | h
          · exact Or.inl h
          · subst h
            exact Or.inr hxmem
      next hnone =>
        rcases rset_keys ai x icon k hk with h | h
        · exact Or.inl h
        · subst h
          exact Or.inr hxmem
    · simp only [parseIcon, hden] at hk
      rw [if_pos (by simpa using htr)] at hk
      exact Or.inl hk

lemma prepareIcons_keys_aux (icons : List Icon)
    (hdens : ∀ i ∈ icons, tstr i.density = true → i.density.getD "" ∈ DENSITIES) :
    ∀ st : Prepared, (∀ k ∈ st.android_icons.map Prod.fst, k ∈ DENSITIES) →
      ∀ k ∈ (icons.foldl prepareIconsStep st).android_icons.map Prod.fst, k ∈ DENSITIES := by
  induction icons with
  | nil => intro st h k hk; exact h k hk
  | cons i rest ih =>
    intro st hst k hk
    simp only [List.foldl_cons] at hk
    refine ih (fun x hx hden => hdens x (by simp [hx]) hden) (prepareIconsStep st i) ?_ k hk
    intro k' hk'
    unfold prepareIconsStep at hk'
    by_cases hdef : isDefaultCandidate i
    · rw [if_pos hdef] at hk'
      cases hsd : st.default_icon with
      | some p =>
        rw [hsd] at hk'
        exact hst k' hk'
      | none =>
        rw [hsd] at hk'
        exact hst k' hk'
    · rw [if_neg hdef] at hk'
      rcases parseIcon_keys st.android_icons i (jsOrNat i.width i.height)
        (hdens i (by simp)) k' hk' with h | h
      · exact hst k' h
      · exact h

lemma deriveSrc_density (i : Icon) : (deriveSrc i).density = i.density := by
  unfold deriveSrc
  split <;> rfl

lemma prepareIcons_entries_clean (icons : List Icon)
    (hdens : ∀ i ∈ icons, tstr i.density = true → i.density.getD "" ∈ DENSITIES) :
    ∀ e ∈ (prepareIcons (icons.map deriveSrc)).android_icons, cleanDensity e.1 = true := by
  intro e he
  have hdens' : ∀ i ∈ icons.map deriveSrc, tstr i.density = true →
      i.density.getD "" ∈ DENSITIES := by
    intro i hi hden
    rw [List.mem_map] at hi
    obtain ⟨j, hj, hji⟩ := hi
    subst hji
    rw [deriveSrc_density] at hden ⊢
    exact hdens j hj hden
  have hk := prepareIcons_keys_aux (icons.map deriveSrc) hdens' ⟨[], none, []⟩
    (by intro k hk; simp at hk) e.1 (List.mem_map_of_mem Prod.fst he)
  exact densities_clean e.1 hk

/-- C6: every adaptive-icon XML descriptor path written directly to disk by the
adaptive pass is removed from the shared resource sync map and is absent from
the final map handed to the file synchronization engine, so the generated
descriptor is never deleted as an orphan by the subsequent sync. (Densities
declared in the descriptor are assumed to be valid Android density qualifiers.) -/
theorem adaptiveDescriptor_excluded (icons : List Icon) (m0 : RMap) (resDir p c : String)
    (m2 : RMap) (ws : List (String × String))
    (hdens : ∀ i ∈ icons, tstr i.density = true → i.density.getD "" ∈ DENSITIES)
    (hrun : updateIconsModel icons m0 resDir = .ok (m2, ws))
    (hw : (p, c) ∈ ws) :
    List.lookup p m2 = none := by
  unfold updateIconsModel at hrun
  cases hres : updateIconsResolve icons with
  | error e => rw [hres] at hrun; simp at hrun
  | ok prep =>
    rw [hres] at hrun
    dsimp only at hrun
    have hprep : prep = prepareIcons (icons.map deriveSrc) := by
      unfold updateIconsResolve at hres
      by_cases hc : (!(errMissing icons).isEmpty || !(errLegacy icons).isEmpty) = true
      · rw [if_pos hc] at hres; simp at hres
      · rw [if_neg hc] at hres
        simp only [Except.ok.injEq] at hres
        exact hres.symm
    have hclean : ∀ e ∈ prep.android_icons, cleanDensity e.1 = true := by
      rw [hprep]
      exact prepareIcons_entries_clean icons hdens
    by_cases hA : hasAdaptive icons = true
    · rw [if_pos hA] at hrun
      cases hada : updateIconResourceForAdaptive prep.android_icons prep.default_icon m0
          resDir with
      | error e => rw [hada] at hrun; simp at hrun
      | ok res =>
        rw [hada] at hrun
        obtain ⟨mres1, ws1⟩ := res
        dsimp only at hrun
        cases hleg : updateIconResourceForLegacy prep.android_icons prep.default_icon mres1
            resDir with
        | error e => rw [hleg] at hrun; simp at hrun
        | ok mfin =>
          rw [hleg] at hrun
          simp only [Except.ok.injEq, Prod.mk.injEq] at hrun
          obtain ⟨hm2, hws⟩ := hrun
          subst hm2
          subst hws
          obtain ⟨d, hdc, hdL, hlk⟩ := updateAdaptive_writes resDir prep.android_icons
            prep.default_icon m0 mres1 ws1 hclean hada (p, c) hw
          simp only at hdL
          subst hdL
          exact updateLegacy_pres resDir d prep.android_icons prep.default_icon mres1 mfin
            hdc hclean hleg hlk
    · rw [if_neg hA] at hrun
      dsimp only at hrun
      cases hleg : updateIconResourceForLegacy prep.android_icons prep.default_icon m0
          resDir with
      | error e => rw [hleg] at hrun; simp at hrun
      | ok mfin =>
        rw [hleg] at hrun
        simp only [Except.ok.injEq, Prod.mk.injEq] at hrun
        obtain ⟨hm2, hws⟩ := hrun
        subst hws
        simp at hw

/-- Witness for C6: one hdpi adaptive declaration with raster assets; the
descriptor path appears in the writes and is absent from the final map. -/
theorem adaptiveDescriptor_excluded_witness :
    updateIconsModel
        [{ density := some "hdpi", background := some "res/bg.png", foreground := some "res/fg.png" }]
        [] "res"
      = .ok ([("res/mipmap-hdpi-v26/ic_launcher_background.png", some "res/bg.png"),
          ("res/mipmap-hdpi-v26/ic_launcher_foreground.png", some "res/fg.png"),
          ("res/mipmap-hdpi/ic_launcher.png", some "res/fg.png")],
        [("res/mipmap-hdpi-v26/ic_launcher.xml",
          icLauncherContentPlain "@mipmap/ic_launcher_background" "@mipmap/ic_launcher_foreground")]) ∧
    List.lookup "res/mipmap-hdpi-v26/ic_launcher.xml"
      [("res/mipmap-hdpi-v26/ic_launcher_background.png", some "res/bg.png"),
       ("res/mipmap-hdpi-v26/ic_launcher_foreground.png", some "res/fg.png"),
       ("res/mipmap-hdpi/ic_launcher.png", some "res/fg.png")] = none :=
  ⟨rfl, adaptiveDescriptor_excluded
    [{ density := some "hdpi", background := some "res/bg.png", foreground := some "res/fg.png" }]
    [] "res" "res/mipmap-hdpi-v26/ic_launcher.xml"
    (icLauncherContentPlain "@mipmap/ic_launcher_background" "@mipmap/ic_launcher_foreground")
    [("res/mipmap-hdpi-v26/ic_launcher_background.png", some "res/bg.png"),
     ("res/mipmap-hdpi-v26/ic_launcher_foreground.png", some "res/fg.png"),
     ("res/mipmap-hdpi/ic_launcher.png", some "res/fg.png")]
    [("res/mipmap-hdpi-v26/ic_launcher.xml",
      icLauncherContentPlain "@mipmap/ic_launcher_background" "@mipmap/ic_launcher_foreground")]
    (by decide) rfl (List.mem_singleton.mpr rfl)⟩

lemma adKey_ne_of_names (resDir n1 n2 s1 s2 : String)
    (h : ∀ a b : String, rename9 n1 a ≠ rename9 n2 b) :
    getAdaptiveImageResourcePath resDir "mipmap" "mdpi" n1 (basename s1)
      ≠ getAdaptiveImageResourcePath resDir "mipmap" "mdpi" n2 (basename s2) := by
  unfold getAdaptiveImageResourcePath
  rw [mipmap_dash_eq]
  intro hE
  exact h _ _ (adPath_inj resDir "mdpi" "mdpi" _ _ (by decide) (by decide) hE).2

lemma rename9_of_not_png (n : String) (hn : jsEndsWith n ".png" = false) :
    ∀ a, rename9 n a = n := by
  intro a
  unfold rename9
  split
  · rw [if_neg (by simp [hn])]
  · rfl

/-- C2: when a default icon exists and no mdpi density was resolved, the
adaptive materializer materializes the default icon's assets into the mdpi slot
using the background classification left over from the last iterated density of
the per-density loop: here the last density's background is an `.xml` vector,
so the default icon's background is mapped under the
`ic_launcher_background.xml` target even though the default icon's own
background asset is a `.png` raster (no fresh classification of the default
icon's extensions happens). -/
theorem defaultAdaptive_usesLeftoverClassification
    (entries : List (String × Icon)) (di : Icon) (m0 : RMap) (resDir : String)
    (dl : String) (il : Icon) (lb lf db df : String) (m' : RMap) (w : List (String × String))
    (hlast : entries.getLast? = some (dl, il))
    (hlb : il.background = some lb)
    (hlf : il.foreground = some lf)
    (hlm : il.monochrome = none)
    (hcol : jsStartsWith lb "@color" = false)
    (hxml : extname (basename lb) = ".xml")
    (hdb : di.background = some db)
    (_hdf : di.foreground = some df)
    (_hdbext : extname (basename db) = ".png")
    (hmdpi : List.lookup "mdpi" entries = none)
    (hrun : updateIconResourceForAdaptive entries (some di) m0 resDir = .ok (m', w)) :
    List.lookup (getAdaptiveImageResourcePath resDir "mipmap" "mdpi"
      ("ic_launcher_background" ++ ".xml") (basename db)) m' = some (some db) := by
  obtain ⟨hbg, hfg, hmono⟩ :=
    adaptiveFold_last resDir entries { rmap := m0 } dl il hlast
  simp only [updateIconResourceForAdaptive] at hrun
  rw [if_neg (by simp [hmdpi])] at hrun
  cases hblock : adaptiveDefaultBlock resDir di
      (entries.foldl (adaptiveIter resDir) { rmap := m0 }) with
  | error e => rw [hblock] at hrun; simp at hrun
  | ok mb =>
    rw [hblock] at hrun
    simp only [Except.ok.injEq, Prod.mk.injEq] at hrun
    obtain ⟨hm', hw⟩ := hrun
    subst hm'
    unfold adaptiveDefaultBlock at hblock
    rw [hbg, hlb] at hblock
    dsimp only at hblock
    rw [show defaultSlotAdd resDir lb "ic_launcher_background" di.background
        (entries.foldl (adaptiveIter resDir) { rmap := m0 }).rmap
        = .ok (rset (entries.foldl (adaptiveIter resDir) { rmap := m0 }).rmap
          (getAdaptiveImageResourcePath resDir "mipmap" "mdpi"
            ("ic_launcher_background" ++ ".xml") (basename db)) (some db)) from by
      unfold defaultSlotAdd
      rw [if_neg (by simp [hcol]), if_pos (by simp [hxml]), hdb]] at hblock
    dsimp only at hblock
    rw [hfg, hlf] at hblock
    dsimp only at hblock
    cases hfg2 : defaultSlotAdd resDir lf "ic_launcher_foreground" di.foreground
        (rset (entries.foldl (adaptiveIter resDir) { rmap := m0 }).rmap
          (getAdaptiveImageResourcePath resDir "mipmap" "mdpi"
            ("ic_launcher_background" ++ ".xml") (basename db)) (some db)) with
    | error e => rw [hfg2] at hblock; simp at hblock
    | ok m2 =>
      rw [hfg2] at hblock
      dsimp only at hblock
      have hmono' : (entries.foldl (adaptiveIter resDir) { rmap := m0 }).monochrome = none := by
        rw [hmono, hlm]
        simp [tstr]
      rw [hmono', if_neg (by simp [tstr])] at hblock
      simp only [Except.ok.injEq] at hblock
      subst hblock
      rw [defaultSlotAdd_pres _ _ _ _ _ _ _ hfg2
        (fun s => adKey_ne_of_names resDir _ _ s db
          (by intro a b
              rw [rename9_of_not_png ("ic_launcher_background" ++ ".xml") (by decide) b,
                rename9_of_not_png ("ic_launcher_foreground" ++ ".xml") (by decide) a]
              decide))
        (fun s => adKey_ne_of_names resDir _ _ s db
          (by intro a b
              rw [rename9_of_not_png ("ic_launcher_background" ++ ".xml") (by decide) b]
              unfold rename9
              split <;> [skip; decide]
              rw [if_pos (by decide)]
              decide))]
      exact lookup_rset_self _ _ _

/-- Witness for C2: the last (and only) iterated density hdpi has an `.xml`
background, the default icon's background is `res/dbg.png` (a raster), yet the
default's asset is materialized under the `ic_launcher_background.xml` mdpi
target, keyed by the leftover classification. -/
theorem defaultAdaptive_usesLeftoverClassification_witness :
    updateIconResourceForAdaptive
        [("hdpi", { background := some "res/bg.xml", foreground := some "res/fg.png", src := some "res/s.png" })]
        (some { background := some "res/dbg.png", foreground := some "res/dfg.png", src := some "res/ds.png" })
        [] "res"
      = .ok ([("res/mipmap-hdpi-v26/ic_launcher_background.xml", some "res/bg.xml"),
          ("res/mipmap-hdpi-v26/ic_launcher_foreground.png", some "res/fg.png"),
          ("res/mipmap-mdpi-v26/ic_launcher_background.xml", some "res/dbg.png"),
          ("res/mipmap-mdpi-v26/ic_launcher_foreground.png", some "res/dfg.png")],
        [("res/mipmap-hdpi-v26/ic_launcher.xml",
          icLauncherContentPlain "@mipmap/ic_launcher_background" "@mipmap/ic_launcher_foreground")]) ∧
    extname (basename "res/dbg.png") = ".png" ∧
    List.lookup (getAdaptiveImageResourcePath "res" "mipmap" "mdpi"
        ("ic_launcher_background" ++ ".xml") (basename "res/dbg.png"))
      [("res/mipmap-hdpi-v26/ic_launcher_background.xml", some "res/bg.xml"),
       ("res/mipmap-hdpi-v26/ic_launcher_foreground.png", some "res/fg.png"),
       ("res/mipmap-mdpi-v26/ic_launcher_background.xml", some "res/dbg.png"),
       ("res/mipmap-mdpi-v26/ic_launcher_foreground.png", some "res/dfg.png")]
      = some (some "res/dbg.png") :=
  ⟨rfl, by decide, defaultAdaptive_usesLeftoverClassification
    [("hdpi", { background := some "res/bg.xml", foreground := some "res/fg.png", src := some "res/s.png" })]
    { background := some "res/dbg.png", foreground := some "res/dfg.png", src := some "res/ds.png" }
    [] "res" "hdpi"
    { background := some "res/bg.xml", foreground := some "res/fg.png", src := some "res/s.png" }
    "res/bg.xml" "res/fg.png" "res/dbg.png" "res/dfg.png"
    [("res/mipmap-hdpi-v26/ic_launcher_background.xml", some "res/bg.xml"),
     ("res/mipmap-hdpi-v26/ic_launcher_foreground.png", some "res/fg.png"),
     ("res/mipmap-mdpi-v26/ic_launcher_background.xml", some "res/dbg.png"),
     ("res/mipmap-mdpi-v26/ic_launcher_foreground.png", some "res/dfg.png")]
    [("res/mipmap-hdpi-v26/ic_launcher.xml",
      icLauncherContentPlain "@mipmap/ic_launcher_background" "@mipmap/ic_launcher_foreground")]
    rfl rfl rfl rfl (by decide) (by decide) rfl rfl (by decide) rfl rfl⟩
